import Mathlib

/-!
# Cell-side auction representative (`auctioncellrep`)

A shallow embedding of `auctioncellrep/auction_cell_rep.go`:

* `PathForRootFS`, the root-filesystem resolver;
* `AuctionCellRep.Perform` with its two translators
  `lrpsToAllocationRequest` and `tasksToAllocationRequests`;
* `AuctionCellRep.State`.

Go slices are lists, a Go `map[string]V` is an association list with one entry
per key, a Go result `(v, err)` is a pair whose second component is an
`Option Error` (`none` is `nil`).  The collaborators of the cell (the executor
client, the instance-GUID generator, the evacuation reporter) are functions on
an arbitrary world state `σ` that is threaded through every call; each call to
the generator and to `AllocateContainers` is also recorded in a call log.
Logging is left out: it has no effect on any result.

Two functions of the Go standard library are transcribed: `url.Parse`, which the
resolver calls, and `json.Unmarshal` into a `[]string` (`json.UnmarshalStrings`).
What the file takes from package `rep` outside `auctioncellrep` (tag keys,
lifecycle markers, key helpers) and the decoder of the tag lists are fields of
a parameter, `Imports`, of every definition that uses them; the sample values
put `json.UnmarshalStrings` in the place of the decoder.
-/

set_option autoImplicit false

namespace Rep

/-! ## Go maps -/

/-- A Go `map[string]V`: association list, at most one entry per key. -/
abbrev GoMap (V : Type) := List (String × V)

namespace GoMap

variable {V : Type}

/-- The read `v, ok := m[k]`. -/
def lookup : GoMap V → String → Option V
  | [], _ => none
  | (k', v) :: m, k => if k' = k then some v else lookup m k

/-- The write `m[k] = v`: an entry with the same key is replaced. -/
def set (m : GoMap V) (k : String) (v : V) : GoMap V :=
  m.filter (fun e => decide (e.1 ≠ k)) ++ [(k, v)]

/-- The read `m[k]` of a `map[string]string`, which gives `""` for a missing key. -/
def getD (m : GoMap String) (k : String) : String :=
  (lookup m k).getD ""

end GoMap

/-! ## Errors -/

/-- Go `error` values met by the cell representative. -/
inductive Error where
  /-- The package variable `ErrPreloadedRootFSNotFound`. -/
  | ErrPreloadedRootFSNotFound
  /-- The package variable `ErrCellUnhealthy`. -/
  | ErrCellUnhealthy
  /-- A `*url.Error` returned by `url.Parse`. -/
  | urlError (msg : String)
  /-- An error produced by a collaborator (executor client, GUID generator, helpers). -/
  | other (msg : String)
  deriving DecidableEq, Repr

deriving instance DecidableEq for Except

/-! ## `net/url` (Go standard library): the part of `url.Parse` the resolver depends on

`PathForRootFS` reads `Scheme`, `Opaque` and `RawQuery` of the parsed URL and
fails when `url.Parse` fails.  The functions below follow `net/url` of the Go
standard library (`Parse`, `parse`, `getScheme`, `parseAuthority`, `parseHost`,
`unescape`, `shouldEscape`) on byte strings, here lists of characters: every
character the parser tests for is ASCII.  Fields of `url.URL` that the resolver
never reads (user, host, path, fragment) are checked as Go checks them but not
stored, and an error keeps only the text of its cause.

`parseHost` is the one of Go 1.25: a host in square brackets has to be an IPv6
literal, which it decides with `netip.ParseAddr`; the part of `net/netip` that
decides whether `ParseAddr` accepts an address, and of which family, comes first. -/

namespace netip

/-- The family of a parsed address: what `Addr.Is4` tells apart. -/
inductive Family where
  | v4 | v6
  deriving DecidableEq, Repr

/-- Go `bytealg.IndexByteString(s, b)`. -/
def indexByte (b : Char) : List Char → Option Nat
  | [] => none
  | c :: cs => if c = b then some 0 else (indexByte b cs).map (· + 1)

/-- The loop of Go `parseIPv4Fields` over `s = in[off:end]`, of length `n`: `i` is the index
of the head of the text that is left, `prev` the byte before it, `val`, `digLen` and `pos` are
the variables of the loop.  The result is `true` when no error is returned. -/
def parseIPv4FieldsLoop (n : Nat) : List Char → Nat → Option Char → Nat → Nat → Nat → Bool
  | [], _, _, _, _, pos => decide (¬ pos < 3)
  | c :: cs, i, prev, val, digLen, pos =>
    if '0' ≤ c ∧ c ≤ '9' then
      if digLen = 1 ∧ val = 0 then false
      else if val * 10 + (c.toNat - '0'.toNat) > 255 then false
      else parseIPv4FieldsLoop n cs (i + 1) (some c) (val * 10 + (c.toNat - '0'.toNat))
        (digLen + 1) pos
    else if c = '.' then
      if i = 0 ∨ i = n - 1 ∨ prev = some '.' then false
      else if pos = 3 then false
      else parseIPv4FieldsLoop n cs (i + 1) (some c) 0 0 (pos + 1)
    else false

/-- Go `parseIPv4Fields(in, off, end, fields)` on `s = in[off:end]`: `true` when it returns
no error (four decimal fields of at most 255 without leading zero, separated by dots). -/
def parseIPv4Fields (s : List Char) : Bool :=
  parseIPv4FieldsLoop s.length s 0 none 0 0 0

/-- The value of a hexadecimal digit, `none` for any other byte. -/
def hexDigit (c : Char) : Option Nat :=
  if '0' ≤ c ∧ c ≤ '9' then some (c.toNat - '0'.toNat)
  else if 'a' ≤ c ∧ c ≤ 'f' then some (c.toNat - 'a'.toNat + 10)
  else if 'A' ≤ c ∧ c ≤ 'F' then some (c.toNat - 'A'.toNat + 10)
  else none

/-- The inner loop of Go `parseIPv6` that reads one hexadecimal field: the number `off` of
digits read and the text from `s[off]` on; `none` when the field has more than four digits or
a value above `0xffff`. -/
def hexField : List Char → Nat → Nat → Option (Nat × List Char)
  | [], off, _ => some (off, [])
  | c :: cs, off, acc =>
    match hexDigit c with
    | some d =>
      if off > 3 then none
      else if acc * 16 + d > 65535 then none
      else hexField cs (off + 1) (acc * 16 + d)
    | none => some (off, c :: cs)

/-- The outer loop `for i < 16` of Go `parseIPv6`, which runs at most eight times: the text
left, the number `i` of address bytes filled and the position of the ellipsis when the loop
ends, `none` when it returns an error. -/
def parseIPv6Loop : Nat → List Char → Nat → Option Nat → Option (List Char × Nat × Option Nat)
  | 0, s, i, ellipsis => some (s, i, ellipsis)
  | fuel + 1, s, i, ellipsis =>
    if ¬ i < 16 then some (s, i, ellipsis)
    else
      match hexField s 0 0 with
      | none => none
      | some (off, rest) =>
        if off = 0 then none
        else if rest.head? = some '.' then
          if ellipsis = none ∧ i ≠ 12 then none
          else if i + 4 > 16 then none
          else if parseIPv4Fields s then some ([], i + 4, ellipsis)
          else none
        else
          match rest with
          | [] => some ([], i + 2, ellipsis)
          | c :: rest1 =>
            if c ≠ ':' then none
            else
              match rest1 with
              | [] => none
              | c1 :: rest2 =>
                if c1 = ':' then
                  if ellipsis.isSome then none
                  else if rest2 = [] then some ([], i + 2, some (i + 2))
                  else parseIPv6Loop fuel rest2 (i + 2) (some (i + 2))
                else parseIPv6Loop fuel (c1 :: rest2) (i + 2) ellipsis

/-- Go `parseIPv6(in)`: `true` when it returns no error.  The zone is split off at the first
`%` and has to be non-empty when there is one; the address is up to eight hexadecimal fields
with at most one `::`, the last two fields possibly written as an IPv4 address. -/
def parseIPv6 (input : List Char) : Bool :=
  let s := match indexByte '%' input with
    | some k => input.take k
    | none => input
  let zone := match indexByte '%' input with
    | some k => input.drop (k + 1)
    | none => []
  if (indexByte '%' input).isSome ∧ zone = [] then false
  else
    let leading := [':', ':'].isPrefixOf s
    let s1 := if leading then s.drop 2 else s
    let ellipsis : Option Nat := if leading then some 0 else none
    if leading ∧ s1 = [] then true
    else
      match parseIPv6Loop 8 s1 0 ellipsis with
      | none => false
      | some (rest, i, ell) =>
        if rest ≠ [] then false
        else if i < 16 then ell.isSome
        else !ell.isSome

/-- The scan of Go `ParseAddr(s)` for the first of `.`, `:` and `%`. -/
def ParseAddrLoop (s : List Char) : List Char → Option Family
  | [] => none
  | c :: cs =>
    if c = '.' then (if parseIPv4Fields s then some Family.v4 else none)
    else if c = ':' then (if parseIPv6 s then some Family.v6 else none)
    else if c = '%' then none
    else ParseAddrLoop s cs

/-- Go `netip.ParseAddr(s)`: the family of the address, `none` when an error is returned. -/
def ParseAddr (s : List Char) : Option Family :=
  ParseAddrLoop s s

end netip

namespace url

/-- The fields of Go's `url.URL` read by `PathForRootFS`. -/
structure URL where
  Scheme : String
  Opaque : String
  RawQuery : String
  deriving DecidableEq, Repr

/-- The escaping modes of `net/url`. -/
inductive Encoding where
  | encodePath | encodePathSegment | encodeHost | encodeZone
  | encodeUserPassword | encodeQueryComponent | encodeFragment
  deriving DecidableEq, Repr

/-- Go `stringContainsCTLByte`: some byte is below `' '` or is `0x7f`. -/
def stringContainsCTLByte (s : List Char) : Bool :=
  s.any fun c => decide (c.toNat < 32) || decide (c.toNat = 127)

/-- Go `strings.Cut(s, sep)` for a one-byte separator: text before and after the first `sep`. -/
def cut (sep : Char) : List Char → List Char × List Char
  | [] => ([], [])
  | c :: cs => if c = sep then ([], cs) else ((c :: (cut sep cs).1), (cut sep cs).2)

/-- Go `strings.LastIndex(s, b)` for a one-byte `b`. -/
def lastIndexByte (b : Char) : List Char → Option Nat
  | [] => none
  | c :: cs =>
    match lastIndexByte b cs with
    | some i => some (i + 1)
    | none => if c = b then some 0 else none

/-- Go `strings.Index(s, sub)`. -/
def index (sub : List Char) : List Char → Option Nat
  | [] => if sub = [] then some 0 else none
  | c :: cs => if sub.isPrefixOf (c :: cs) then some 0 else (index sub cs).map (· + 1)

/-- Go `ishex`. -/
def ishex (c : Char) : Bool :=
  ('0' ≤ c && c ≤ '9') || ('a' ≤ c && c ≤ 'f') || ('A' ≤ c && c ≤ 'F')

/-- Go `unhex`. -/
def unhex (c : Char) : Nat :=
  if '0' ≤ c && c ≤ '9' then c.toNat - '0'.toNat
  else if 'a' ≤ c && c ≤ 'f' then c.toNat - 'a'.toNat + 10
  else if 'A' ≤ c && c ≤ 'F' then c.toNat - 'A'.toNat + 10
  else 0

/-- Go `shouldEscape(c, encodeHost)` on a byte value. -/
def shouldEscapeHost (c : Nat) : Bool :=
  if (97 ≤ c && c ≤ 122) || (65 ≤ c && c ≤ 90) || (48 ≤ c && c ≤ 57) then false
  else if c ∈ ['!', '$', '&', '\'', '(', ')', '*', '+', ',', ';', '=', ':', '[', ']', '<', '>',
      '"'].map Char.toNat then false
  else if c ∈ ['-', '_', '.', '~'].map Char.toNat then false
  else true

/-- The checking pass of Go `unescape(s, mode)`: `true` when no error is returned. -/
def unescapeOk (mode : Encoding) : List Char → Bool
  | [] => true
  | '%' :: h1 :: h2 :: rest =>
    if !(ishex h1 && ishex h2) then false
    else if mode = .encodeHost && decide (unhex h1 < 8) && (h1, h2) != ('2', '5') then false
    else if mode = .encodeZone && (h1, h2) != ('2', '5') && unhex h1 * 16 + unhex h2 != 32
        && shouldEscapeHost (unhex h1 * 16 + unhex h2) then false
    else unescapeOk mode rest
  | '%' :: _ => false
  | c :: rest =>
    if (mode = .encodeHost || mode = .encodeZone) && decide (c.toNat < 128)
        && shouldEscapeHost c.toNat then false
    else unescapeOk mode rest

/-- The scanning loop of Go `getScheme`; `seen` holds the bytes already accepted, reversed. -/
def getSchemeLoop (rawURL : List Char) : List Char → List Char → Except String (List Char × List Char)
  | _, [] => .ok ([], rawURL)
  | seen, c :: cs =>
    if c.isAlpha then getSchemeLoop rawURL (c :: seen) cs
    else if c.isDigit || c = '+' || c = '-' || c = '.' then
      if seen = [] then .ok ([], rawURL) else getSchemeLoop rawURL (c :: seen) cs
    else if c = ':' then
      if seen = [] then .error "missing protocol scheme" else .ok (seen.reverse, cs)
    else .ok ([], rawURL)

/-- Go `getScheme`: the scheme and the text after its colon. -/
def getScheme (rawURL : List Char) : Except String (List Char × List Char) :=
  getSchemeLoop rawURL [] rawURL

/-- Go `validOptionalPort`. -/
def validOptionalPort : List Char → Bool
  | [] => true
  | c :: digits => c = ':' && digits.all Char.isDigit

/-- Go `validUserinfo`. -/
def validUserinfo (s : List Char) : Bool :=
  s.all fun r => r.isAlphanum ||
    r ∈ ['-', '.', '_', ':', '~', '!', '$', '&', '\'', '(', ')', '*', '+', ',', ';', '=', '%', '@']

/-- The decoding pass of Go `unescape(s, mode)`, for a mode other than
`encodeQueryComponent` and text that the checking pass accepts: every `%XX` becomes the byte
`XX`.  A byte above 127 stands as the character of that number. -/
def unescapeValue : List Char → List Char
  | [] => []
  | '%' :: h1 :: h2 :: rest => Char.ofNat (unhex h1 * 16 + unhex h2) :: unescapeValue rest
  | c :: rest => c :: unescapeValue rest

/-- The end of the bracket branch of Go `parseHost`: the unescaped text between the brackets
has to be an address that `netip.ParseAddr` accepts and that is no IPv4 address. -/
def checkIPLiteral (unescapedHostname : List Char) : Option String :=
  match netip.ParseAddr unescapedHostname with
  | none => some "invalid host"
  | some netip.Family.v4 => some "invalid IP-literal"
  | some netip.Family.v6 => none

/-- Go `parseHost`: `none` when the host is accepted, else the error text. -/
def parseHost (host : List Char) : Option String :=
  match lastIndexByte '[' host with
  | some openBracketIdx =>
    match lastIndexByte ']' host with
    | none => some "missing ']' in host"
    | some closeBracketIdx =>
      let colonPort := host.drop (closeBracketIdx + 1)
      if !validOptionalPort colonPort then some "invalid port after host"
      else if !unescapeOk .encodeHost colonPort then some "invalid URL escape"
      else
        let hostname := (host.take closeBracketIdx).drop (openBracketIdx + 1)
        match index ['%', '2', '5'] hostname with
        | some zoneIdx =>
          if !unescapeOk .encodeHost (hostname.take zoneIdx) then some "invalid URL escape"
          else if !unescapeOk .encodeZone (hostname.drop zoneIdx) then some "invalid URL escape"
          else checkIPLiteral
            (unescapeValue (hostname.take zoneIdx) ++ unescapeValue (hostname.drop zoneIdx))
        | none =>
          if !unescapeOk .encodeHost hostname then some "invalid URL escape"
          else checkIPLiteral (unescapeValue hostname)
  | none =>
    match lastIndexByte ':' host with
    | some i =>
      if !validOptionalPort (host.drop i) then some "invalid port after host"
      else if unescapeOk .encodeHost host then none else some "invalid URL escape"
    | none => if unescapeOk .encodeHost host then none else some "invalid URL escape"

/-- Go `parseAuthority`: `none` when user information and host are accepted. -/
def parseAuthority (authority : List Char) : Option String :=
  match lastIndexByte '@' authority with
  | none => parseHost authority
  | some i =>
    match parseHost (authority.drop (i + 1)) with
    | some e => some e
    | none =>
      let userinfo := authority.take i
      if !validUserinfo userinfo then some "net/url: invalid userinfo"
      else if !userinfo.contains ':' then
        if unescapeOk .encodeUserPassword userinfo then none else some "invalid URL escape"
      else if !unescapeOk .encodeUserPassword (cut ':' userinfo).1 then some "invalid URL escape"
      else if !unescapeOk .encodeUserPassword (cut ':' userinfo).2 then some "invalid URL escape"
      else none

/-- Go `parse(rawURL, viaRequest = false)`. -/
def parse (rawURL : List Char) : Except String URL :=
  if stringContainsCTLByte rawURL then .error "net/url: invalid control character in URL"
  else if rawURL = ['*'] then .ok { Scheme := "", Opaque := "", RawQuery := "" }
  else
    match getScheme rawURL with
    | .error e => .error e
    | .ok (scheme0, rest0) =>
      let scheme := scheme0.map Char.toLower
      let forceQuery := rest0.getLast? = some '?' && rest0.count '?' = 1
      let rest := if forceQuery then rest0.dropLast else (cut '?' rest0).1
      let rawQuery := if forceQuery then [] else (cut '?' rest0).2
      let u : URL := { Scheme := String.mk scheme, Opaque := "", RawQuery := String.mk rawQuery }
      if rest.head? ≠ some '/' ∧ scheme ≠ [] then
        .ok { u with Opaque := String.mk rest }
      else if rest.head? ≠ some '/' ∧ (cut '/' rest).1.contains ':' then
        .error "first path segment in URL cannot contain colon"
      else if (scheme ≠ [] ∨ ¬ ['/', '/', '/'].isPrefixOf rest) ∧ ['/', '/'].isPrefixOf rest then
        let authority := (cut '/' (rest.drop 2)).1
        let path := (rest.drop 2).drop authority.length
        match parseAuthority authority with
        | some e => .error e
        | none => if unescapeOk .encodePath path then .ok u else .error "invalid URL escape"
      else if unescapeOk .encodePath rest then .ok u else .error "invalid URL escape"

/-- Go `url.Parse`: the fragment is cut off, the rest is parsed, the fragment is checked. -/
def Parse (rawURL : String) : Except Error URL :=
  let u := (cut '#' rawURL.data).1
  let frag := (cut '#' rawURL.data).2
  match parse u with
  | .error e => .error (.urlError e)
  | .ok url =>
    if frag = [] then .ok url
    else if unescapeOk .encodeFragment frag then .ok url
    else .error (.urlError "invalid URL escape")

end url

/-! ## `bbs/models`: the two preloaded root-filesystem schemes -/

namespace models

/-- The constant `models.PreloadedRootFSScheme`. -/
def PreloadedRootFSScheme : String := "preloaded"

/-- The constant `models.PreloadedOCIRootFSScheme`. -/
def PreloadedOCIRootFSScheme : String := "preloaded+layer"

end models

/-! ## The root-filesystem resolver -/

/-- The type `rep.StackPathMap`, a `map[string]string` from stack name to path. -/
abbrev StackPathMap := GoMap String

/-- The package variable `ErrPreloadedRootFSNotFound`. -/
def ErrPreloadedRootFSNotFound : Error := .ErrPreloadedRootFSNotFound

/-- The function `PathForRootFS(rootFS, stackPathMap)`; the result is Go's `(string, error)`. -/
def PathForRootFS (rootFS : String) (stackPathMap : StackPathMap) : String × Option Error :=
  if rootFS = "" then (rootFS, none)
  else
    match url.Parse rootFS with
    | .error err => ("", some err)
    | .ok u =>
      if u.Scheme = models.PreloadedRootFSScheme then
        match GoMap.lookup stackPathMap u.Opaque with
        | none => ("", some ErrPreloadedRootFSNotFound)
        | some path => (path, none)
      else if u.Scheme = models.PreloadedOCIRootFSScheme then
        match GoMap.lookup stackPathMap u.Opaque with
        | none => ("", some ErrPreloadedRootFSNotFound)
        | some path => (u.Scheme ++ ":" ++ path ++ "?" ++ u.RawQuery, none)
      else (rootFS, none)

/-! ## Package `executor`: the records exchanged with the container runtime -/

namespace executor

/-- The type `executor.Tags`, a `map[string]string`. -/
abbrev Tags := GoMap String

/-- The type `executor.Resource`. -/
structure Resource where
  MemoryMB : Int
  DiskMB : Int
  MaxPids : Int
  RootFSPath : String
  deriving DecidableEq, Repr

/-- The type `executor.AllocationRequest`. -/
structure AllocationRequest where
  Guid : String
  Resource : Resource
  Tags : Tags
  deriving DecidableEq, Repr

/-- The type `executor.AllocationFailure`: the request that failed and the reason. -/
structure AllocationFailure where
  AllocationRequest : AllocationRequest
  ErrorMsg : String
  deriving DecidableEq, Repr

/-- The promoted field `failure.Guid`. -/
def AllocationFailure.Guid (f : AllocationFailure) : String := f.AllocationRequest.Guid

/-- The constructor `executor.NewResource`. -/
def NewResource (memoryMB diskMB maxPids : Int) (rootFSPath : String) : Resource :=
  { MemoryMB := memoryMB, DiskMB := diskMB, MaxPids := maxPids, RootFSPath := rootFSPath }

/-- The constructor `executor.NewAllocationRequest`. -/
def NewAllocationRequest (guid : String) (resource : Resource) (tags : Tags) : AllocationRequest :=
  { Guid := guid, Resource := resource, Tags := tags }

/-- The type `executor.ExecutorResources`. -/
structure ExecutorResources where
  MemoryMB : Int
  DiskMB : Int
  Containers : Int
  deriving DecidableEq, Repr

/-- The lifecycle state `executor.StateReserved`. -/
def StateReserved : String := "reserved"
/-- The lifecycle state `executor.StateInitializing`. -/
def StateInitializing : String := "initializing"
/-- The lifecycle state `executor.StateCreated`. -/
def StateCreated : String := "created"

/-- The fields of `executor.Container` read by `State`; `Tags = none` is the nil map. -/
structure Container where
  Guid : String
  MemoryMB : Int
  DiskMB : Int
  MaxPids : Int
  RootFSPath : String
  Tags : Option Tags
  State : String
  deriving DecidableEq, Repr

/-- The methods of `executor.Client` used by the cell, as functions on the world state `σ`. -/
structure Client (σ : Type) where
  ListContainers : σ → (List Container × Option Error) × σ
  TotalResources : σ → (ExecutorResources × Option Error) × σ
  RemainingResources : σ → (ExecutorResources × Option Error) × σ
  VolumeDrivers : σ → (List String × Option Error) × σ
  Healthy : σ → Bool × σ
  AllocateContainers : σ → List AllocationRequest → (List AllocationFailure × Option Error) × σ

end executor

/-! ## Package `rep`: the domain records -/

/-- Modelled from the spec: `rep.Resource` is not under src/; section 3 gives
`{memoryMB, diskMB, maxPids: integers}`. -/
structure Resource where
  MemoryMB : Int
  DiskMB : Int
  MaxPids : Int
  deriving DecidableEq, Repr

/-- Modelled from the spec: `rep.PlacementConstraint` is not under src/; section 3 gives
`{rootFS, volumeDrivers, placementTags}`. -/
structure PlacementConstraint where
  PlacementTags : List String
  VolumeDrivers : List String
  RootFs : String
  deriving DecidableEq, Repr

/-- The process key of an LRP (`models.ActualLRPKey`): process identifier, index, domain. -/
structure ActualLRPKey where
  ProcessGuid : String
  Index : Int
  Domain : String
  deriving DecidableEq, Repr

/-- The instance key of an LRP (`models.ActualLRPInstanceKey`). -/
structure ActualLRPInstanceKey where
  InstanceGuid : String
  CellId : String
  deriving DecidableEq, Repr

/-- Modelled from the spec: `rep.LRP` is not under src/; section 3 gives
`{instanceGuid, processGuid, index, domain, resource, placementConstraint}`. -/
structure LRP extends ActualLRPKey, PlacementConstraint, Resource where
  InstanceGUID : String
  deriving DecidableEq, Repr

/-- Modelled from the spec: `rep.Task` is not under src/; section 3 gives
`{taskGuid, domain, resource, placementConstraint}`. -/
structure Task extends PlacementConstraint, Resource where
  TaskGuid : String
  Domain : String
  deriving DecidableEq, Repr

/-- Modelled from the spec: `rep.Work` is not under src/; section 3 gives
`{lrps: sequence of LRP, tasks: sequence of Task}`. -/
structure Work where
  LRPs : List LRP
  Tasks : List Task
  deriving DecidableEq, Repr

/-- What `auction_cell_rep.go` takes from package `rep` (declared outside src/) and from
`encoding/json`: the tag keys and lifecycle values, the container-identifier and key helpers,
and `json.Unmarshal` into a `[]string` (the slice it leaves behind and its error). -/
structure Imports where
  DomainTag : String
  ProcessGuidTag : String
  ProcessIndexTag : String
  LifecycleTag : String
  InstanceGuidTag : String
  PlacementTagsTag : String
  VolumeDriversTag : String
  LRPLifecycle : String
  TaskLifecycle : String
  LRPContainerGuid : String → String → String
  ActualLRPKeyFromTags : executor.Tags → ActualLRPKey × Option Error
  ActualLRPInstanceKeyFromContainer : executor.Container → String → ActualLRPInstanceKey × Option Error
  jsonUnmarshalStrings : String → List String × Option Error

/-- A fixed-set or arbitrary root-filesystem provider (`rep.RootFSProvider`). -/
inductive RootFSProvider where
  | FixedSet (names : List String)
  | Arbitrary
  deriving DecidableEq, Repr

/-- The type `rep.RootFSProviders`, from scheme to provider. -/
abbrev RootFSProviders := GoMap RootFSProvider

/-! ## The cell representative -/

/-- The struct `AuctionCellRep`.  Its three collaborators act on the world state `σ`. -/
structure AuctionCellRep (σ : Type) where
  cellID : String
  stackPathMap : StackPathMap
  rootFSProviders : RootFSProviders
  stack : String
  zone : String
  generateInstanceGuid : σ → (String × Option Error) × σ
  client : executor.Client σ
  evacuationReporter : σ → Bool
  placementTags : List String
  optionalPlacementTags : List String

/-- A recorded call to a collaborator. -/
inductive Call where
  | GenerateInstanceGuid
  | AllocateContainers (requests : List executor.AllocationRequest)
  deriving DecidableEq, Repr

/-- The world state together with the log of the calls made so far. -/
structure Run (σ : Type) where
  world : σ
  calls : List Call

section Translators

variable {σ : Type}

/-- The call `a.generateInstanceGuid()`, logged. -/
def callGenerateInstanceGuid (a : AuctionCellRep σ) (r : Run σ) : (String × Option Error) × Run σ :=
  ((a.generateInstanceGuid r.world).1,
    { world := (a.generateInstanceGuid r.world).2, calls := r.calls ++ [Call.GenerateInstanceGuid] })

/-- The call `a.client.AllocateContainers(logger, requests)`, logged. -/
def callAllocateContainers (a : AuctionCellRep σ) (requests : List executor.AllocationRequest)
    (r : Run σ) : (List executor.AllocationFailure × Option Error) × Run σ :=
  ((a.client.AllocateContainers r.world requests).1,
    { world := (a.client.AllocateContainers r.world requests).2,
      calls := r.calls ++ [Call.AllocateContainers requests] })

/-- A pointer `&lrps[index]` held in `lrpMap`, with the element it points to
(the input slice is never written during `Perform`). -/
structure LRPRef where
  index : Nat
  elem : LRP
  deriving DecidableEq, Repr

/-- A pointer `&tasks[index]` held in `taskMap`, with the element it points to. -/
structure TaskRef where
  index : Nat
  elem : Task
  deriving DecidableEq, Repr

/-- The three results of `lrpsToAllocationRequest`. -/
structure LRPTranslation where
  requests : List executor.AllocationRequest
  lrpMap : GoMap LRPRef
  untranslatedLRPs : List LRP
  deriving DecidableEq, Repr

/-- The three results of `tasksToAllocationRequests`. -/
structure TaskTranslation where
  requests : List executor.AllocationRequest
  taskMap : GoMap TaskRef
  failedTasks : List Task
  deriving DecidableEq, Repr

/-- The tags that `lrpsToAllocationRequest` writes for one LRP, in the order of the source. -/
def lrpTags (I : Imports) (lrp : LRP) (instanceGuid : String) : executor.Tags :=
  GoMap.set (GoMap.set (GoMap.set (GoMap.set (GoMap.set [] I.DomainTag lrp.Domain)
    I.ProcessGuidTag lrp.ProcessGuid) I.ProcessIndexTag (toString lrp.Index))
    I.LifecycleTag I.LRPLifecycle) I.InstanceGuidTag instanceGuid

/-- One iteration of the loop of `lrpsToAllocationRequest`, for `lrp := &lrps[i]`. -/
def lrpsToAllocationRequestStep (I : Imports) (a : AuctionCellRep σ) (i : Nat) (lrp : LRP)
    (acc : LRPTranslation) (r : Run σ) : LRPTranslation × Run σ :=
  let g := callGenerateInstanceGuid a r
  match g.1.2 with
  | some _ => ({ acc with untranslatedLRPs := acc.untranslatedLRPs ++ [lrp] }, g.2)
  | none =>
    let instanceGuid := g.1.1
    let tags := lrpTags I lrp instanceGuid
    let p := PathForRootFS lrp.RootFs a.stackPathMap
    match p.2 with
    | some _ => ({ acc with untranslatedLRPs := acc.untranslatedLRPs ++ [lrp] }, g.2)
    | none =>
      let containerGuid := I.LRPContainerGuid lrp.ProcessGuid instanceGuid
      let resource := executor.NewResource lrp.MemoryMB lrp.DiskMB lrp.MaxPids p.1
      ({ requests := acc.requests ++ [executor.NewAllocationRequest containerGuid resource tags],
         lrpMap := GoMap.set acc.lrpMap containerGuid { index := i, elem := lrp },
         untranslatedLRPs := acc.untranslatedLRPs }, g.2)

/-- The loop `for i := range lrps` of `lrpsToAllocationRequest`, from index `i` on. -/
def lrpsToAllocationRequestLoop (I : Imports) (a : AuctionCellRep σ) :
    Nat → List LRP → LRPTranslation → Run σ → LRPTranslation × Run σ
  | _, [], acc, r => (acc, r)
  | i, lrp :: rest, acc, r =>
    lrpsToAllocationRequestLoop I a (i + 1) rest
      (lrpsToAllocationRequestStep I a i lrp acc r).1 (lrpsToAllocationRequestStep I a i lrp acc r).2

/-- The method `lrpsToAllocationRequest`. -/
def lrpsToAllocationRequest (I : Imports) (a : AuctionCellRep σ) (lrps : List LRP) (r : Run σ) :
    LRPTranslation × Run σ :=
  lrpsToAllocationRequestLoop I a 0 lrps { requests := [], lrpMap := [], untranslatedLRPs := [] } r

/-- One iteration of the loop of `tasksToAllocationRequests`, for `task := &tasks[i]`. -/
def tasksToAllocationRequestsStep (I : Imports) (a : AuctionCellRep σ) (i : Nat) (task : Task)
    (acc : TaskTranslation) : TaskTranslation :=
  let taskMap := GoMap.set acc.taskMap task.TaskGuid { index := i, elem := task }
  let p := PathForRootFS task.RootFs a.stackPathMap
  match p.2 with
  | some _ =>
    { requests := acc.requests, taskMap := taskMap, failedTasks := acc.failedTasks ++ [task] }
  | none =>
    let tags : executor.Tags :=
      GoMap.set (GoMap.set [] I.LifecycleTag I.TaskLifecycle) I.DomainTag task.Domain
    let resource := executor.NewResource task.MemoryMB task.DiskMB task.MaxPids p.1
    { requests := acc.requests ++ [executor.NewAllocationRequest task.TaskGuid resource tags],
      taskMap := taskMap, failedTasks := acc.failedTasks }

/-- The loop `for i := range tasks` of `tasksToAllocationRequests`, from index `i` on. -/
def tasksToAllocationRequestsLoop (I : Imports) (a : AuctionCellRep σ) :
    Nat → List Task → TaskTranslation → TaskTranslation
  | _, [], acc => acc
  | i, task :: rest, acc =>
    tasksToAllocationRequestsLoop I a (i + 1) rest (tasksToAllocationRequestsStep I a i task acc)

/-- The method `tasksToAllocationRequests`. -/
def tasksToAllocationRequests (I : Imports) (a : AuctionCellRep σ) (tasks : List Task) :
    TaskTranslation :=
  tasksToAllocationRequestsLoop I a 0 tasks { requests := [], taskMap := [], failedTasks := [] }

/-- The loop over `failures` in the LRP block of `Perform`: a failure whose identifier is in
`lrpMap` appends the LRP it points to, any other failure is passed over. -/
def appendFailedLRPs (lrpMap : GoMap LRPRef) : List executor.AllocationFailure → List LRP → List LRP
  | [], failed => failed
  | failure :: rest, failed =>
    match GoMap.lookup lrpMap failure.Guid with
    | some lrp => appendFailedLRPs lrpMap rest (failed ++ [lrp.elem])
    | none => appendFailedLRPs lrpMap rest failed

/-- The loop over `failures` in the task block of `Perform`. -/
def appendFailedTasks (taskMap : GoMap TaskRef) :
    List executor.AllocationFailure → List Task → List Task
  | [], failed => failed
  | failure :: rest, failed =>
    match GoMap.lookup taskMap failure.Guid with
    | some task => appendFailedTasks taskMap rest (failed ++ [task.elem])
    | none => appendFailedTasks taskMap rest failed

/-- The block `if len(work.LRPs) > 0 { ... }` of `Perform`: the new `failedWork.LRPs`. -/
def performLRPs (I : Imports) (a : AuctionCellRep σ) (lrps : List LRP) (failedLRPs : List LRP)
    (r : Run σ) : List LRP × Run σ :=
  let t := lrpsToAllocationRequest I a lrps r
  let failed1 := if t.1.untranslatedLRPs.length > 0 then t.1.untranslatedLRPs else failedLRPs
  let c := callAllocateContainers a t.1.requests t.2
  match c.1.2 with
  | some _ => (lrps, c.2)
  | none => (appendFailedLRPs t.1.lrpMap c.1.1 failed1, c.2)

/-- The block `if len(work.Tasks) > 0 { ... }` of `Perform`: the new `failedWork.Tasks`. -/
def performTasks (I : Imports) (a : AuctionCellRep σ) (tasks : List Task) (failedTasks : List Task)
    (r : Run σ) : List Task × Run σ :=
  let t := tasksToAllocationRequests I a tasks
  let failed1 := if t.failedTasks.length > 0 then t.failedTasks else failedTasks
  let c := callAllocateContainers a t.requests r
  match c.1.2 with
  | some _ => (tasks, c.2)
  | none => (appendFailedTasks t.taskMap c.1.1 failed1, c.2)

/-- What `Perform` returns, with the final world state and the calls it made. -/
structure PerformResult (σ : Type) where
  work : Work
  err : Option Error
  run : Run σ

/-- The method `Perform(logger, work)`, started in world state `s`. -/
def Perform (I : Imports) (a : AuctionCellRep σ) (work : Work) (s : σ) : PerformResult σ :=
  let r0 : Run σ := { world := s, calls := [] }
  if a.evacuationReporter s then { work := work, err := none, run := r0 }
  else
    let l := if work.LRPs.length > 0 then performLRPs I a work.LRPs [] r0 else ([], r0)
    let t := if work.Tasks.length > 0 then performTasks I a work.Tasks [] l.2 else ([], l.2)
    { work := { LRPs := l.1, Tasks := t.1 }, err := none, run := t.2 }

end Translators

/-! ## The state builder -/

/-- The Go conversion `int32(x)` of an `int`: the value is wrapped into 32 bits. -/
def toInt32 (x : Int) : Int :=
  (x + 2147483648) % 4294967296 - 2147483648

/-- Modelled from the spec: `rep.Resources` is not under src/; the totals reported by a cell
are memory, disk and a number of containers (sections 4.3 and 6). -/
structure Resources where
  MemoryMB : Int
  DiskMB : Int
  Containers : Int
  deriving DecidableEq, Repr

/-- Modelled from the spec: `rep.CellState` is not under src/; section 3 gives
`{rootFSProviders, availableResources, totalResources, lrps, tasks, zone,
startingContainerCount, evacuating, volumeDrivers, placementTags, optionalPlacementTags}`. -/
structure CellState where
  RootFSProviders : RootFSProviders
  AvailableResources : Resources
  TotalResources : Resources
  LRPs : List LRP
  Tasks : List Task
  Zone : String
  StartingContainerCount : Nat
  Evacuating : Bool
  VolumeDrivers : List String
  PlacementTags : List String
  OptionalPlacementTags : List String
  deriving DecidableEq, Repr

/-- The Go zero value `rep.CellState{}`. -/
def CellState.zero : CellState :=
  { RootFSProviders := [], AvailableResources := { MemoryMB := 0, DiskMB := 0, Containers := 0 },
    TotalResources := { MemoryMB := 0, DiskMB := 0, Containers := 0 }, LRPs := [], Tasks := [],
    Zone := "", StartingContainerCount := 0, Evacuating := false, VolumeDrivers := [],
    PlacementTags := [], OptionalPlacementTags := [] }

/-- Modelled from the spec: the constructor `rep.NewLRP` is not under src/; it builds the LRP
record of section 3 from instance identifier, process key, resource and placement constraint. -/
def NewLRP (instanceGuid : String) (key : ActualLRPKey) (res : Resource)
    (pc : PlacementConstraint) : LRP :=
  { toActualLRPKey := key, toPlacementConstraint := pc, toResource := res,
    InstanceGUID := instanceGuid }

/-- Modelled from the spec: the constructor `rep.NewTask` is not under src/; it builds the Task
record of section 3 from task identifier, domain, resource and placement constraint. -/
def NewTask (guid domain : String) (res : Resource) (pc : PlacementConstraint) : Task :=
  { toPlacementConstraint := pc, toResource := res, TaskGuid := guid, Domain := domain }

/-- Modelled from the spec: the constructor `rep.NewCellState` is not under src/; it fills the
fields of the snapshot of section 3 from its arguments, in the order `State` passes them. -/
def NewCellState (root : RootFSProviders) (avail total : Resources) (lrps : List LRP)
    (tasks : List Task) (zone : String) (startingContainerCount : Nat) (isEvac : Bool)
    (volumeDrivers placementTags optionalPlacementTags : List String) : CellState :=
  { RootFSProviders := root, AvailableResources := avail, TotalResources := total, LRPs := lrps,
    Tasks := tasks, Zone := zone, StartingContainerCount := startingContainerCount,
    Evacuating := isEvac, VolumeDrivers := volumeDrivers, PlacementTags := placementTags,
    OptionalPlacementTags := optionalPlacementTags }

/-- The function `containerIsStarting`. -/
def containerIsStarting (container : executor.Container) : Bool :=
  container.State = executor.StateReserved ||
    container.State = executor.StateInitializing ||
    container.State = executor.StateCreated

/-- The method `convertResources`. -/
def convertResources (resources : executor.ExecutorResources) : Resources :=
  { MemoryMB := toInt32 resources.MemoryMB, DiskMB := toInt32 resources.DiskMB,
    Containers := resources.Containers }

/-- The three accumulators of the container loop of `State`. -/
structure StateAcc where
  lrps : List LRP
  tasks : List Task
  startingContainerCount : Nat
  deriving DecidableEq, Repr

/-- One iteration of the loop `for i := range containers` of `State`. -/
def stateStep (I : Imports) (cellID : String) (container : executor.Container) (acc : StateAcc) :
    StateAcc :=
  let count :=
    if containerIsStarting container then acc.startingContainerCount + 1
    else acc.startingContainerCount
  match container.Tags with
  | none => { acc with startingContainerCount := count }
  | some tags =>
    let placementTags := (I.jsonUnmarshalStrings (GoMap.getD tags I.PlacementTagsTag)).1
    let volumeDrivers := (I.jsonUnmarshalStrings (GoMap.getD tags I.VolumeDriversTag)).1
    let resource : Resource :=
      { MemoryMB := toInt32 container.MemoryMB, DiskMB := toInt32 container.DiskMB,
        MaxPids := toInt32 container.MaxPids }
    let placementConstraint : PlacementConstraint :=
      { RootFs := container.RootFSPath, VolumeDrivers := volumeDrivers,
        PlacementTags := placementTags }
    if GoMap.getD tags I.LifecycleTag = I.LRPLifecycle then
      let key := I.ActualLRPKeyFromTags tags
      match key.2 with
      | some _ => { acc with startingContainerCount := count }
      | none =>
        let instanceKey := I.ActualLRPInstanceKeyFromContainer container cellID
        match instanceKey.2 with
        | some _ => { acc with startingContainerCount := count }
        | none =>
          { lrps := acc.lrps ++ [NewLRP instanceKey.1.InstanceGuid key.1 resource placementConstraint],
            tasks := acc.tasks, startingContainerCount := count }
    else if GoMap.getD tags I.LifecycleTag = I.TaskLifecycle then
      { lrps := acc.lrps,
        tasks := acc.tasks ++
          [NewTask container.Guid (GoMap.getD tags I.DomainTag) resource placementConstraint],
        startingContainerCount := count }
    else { acc with startingContainerCount := count }

/-- The loop `for i := range containers` of `State`. -/
def stateLoop (I : Imports) (cellID : String) : List executor.Container → StateAcc → StateAcc
  | [], acc => acc
  | container :: rest, acc => stateLoop I cellID rest (stateStep I cellID container acc)

/-- What `State` returns, with the final world state. -/
structure StateResult (σ : Type) where
  state : CellState
  healthy : Bool
  err : Option Error
  world : σ

/-- The method `State(logger)`, started in world state `s`. -/
def State {σ : Type} (I : Imports) (a : AuctionCellRep σ) (s : σ) : StateResult σ :=
  let containers := a.client.ListContainers s
  match containers.1.2 with
  | some err => { state := CellState.zero, healthy := false, err := some err, world := containers.2 }
  | none =>
    let totalResources := a.client.TotalResources containers.2
    match totalResources.1.2 with
    | some err =>
      { state := CellState.zero, healthy := false, err := some err, world := totalResources.2 }
    | none =>
      let availableResources := a.client.RemainingResources totalResources.2
      match availableResources.1.2 with
      | some err =>
        { state := CellState.zero, healthy := false, err := some err,
          world := availableResources.2 }
      | none =>
        let volumeDrivers := a.client.VolumeDrivers availableResources.2
        match volumeDrivers.1.2 with
        | some err =>
          { state := CellState.zero, healthy := false, err := some err, world := volumeDrivers.2 }
        | none =>
          let acc := stateLoop I a.cellID containers.1.1
            { lrps := [], tasks := [], startingContainerCount := 0 }
          let state := NewCellState a.rootFSProviders (convertResources availableResources.1.1)
            (convertResources totalResources.1.1) acc.lrps acc.tasks a.zone
            acc.startingContainerCount (a.evacuationReporter volumeDrivers.2) volumeDrivers.1.1
            a.placementTags a.optionalPlacementTags
          let healthy := a.client.Healthy volumeDrivers.2
          { state := state, healthy := healthy.1, err := none, world := healthy.2 }


/-! ## `encoding/json` (Go standard library): `json.Unmarshal` into a `[]string`

`State` decodes two tag values with `json.Unmarshal(data, &list)` where `list` is a nil
`[]string`.  `Unmarshal` first checks that the whole input is one well-formed JSON value
(`checkValid`); only then does it decode, and a value that does not fit its target is
recorded as an error while decoding goes on.  The parser below accepts the JSON texts that
Go's scanner accepts, its limit on the nesting depth included, and keeps what the decoder
needs. -/

namespace json

/-- A parsed JSON value. -/
inductive Value where
  | null
  | bool (b : Bool)
  | number
  | string (s : String)
  | array (elems : List Value)
  | object (members : List (String × Value))

/-- Go `isSpace`: blank, tab, carriage return, line feed. -/
def isSpace (c : Char) : Bool :=
  c = ' ' || c = '\t' || c = '\r' || c = '\n'

/-- The input with leading white space dropped. -/
def skipSpace : List Char → List Char
  | [] => []
  | c :: cs => if isSpace c then skipSpace cs else c :: cs

/-- The value of a hexadecimal digit. -/
def hexVal (c : Char) : Option Nat :=
  if '0' ≤ c && c ≤ '9' then some (c.toNat - '0'.toNat)
  else if 'a' ≤ c && c ≤ 'f' then some (c.toNat - 'a'.toNat + 10)
  else if 'A' ≤ c && c ≤ 'F' then some (c.toNat - 'A'.toNat + 10)
  else none

/-- Go `getu4` on the text after `\u`: the value of four hexadecimal digits and the rest. -/
def getu4 : List Char → Option (Nat × List Char)
  | a :: b :: c :: d :: rest =>
    match hexVal a, hexVal b, hexVal c, hexVal d with
    | some x, some y, some z, some w => some (((x * 16 + y) * 16 + z) * 16 + w, rest)
    | _, _, _, _ => none
  | _ => none

/-- The body of a string literal, after its opening quote: the decoded text (Go `unquote`)
and the input after the closing quote; `none` for text that the scanner rejects. -/
def stringBody : Nat → List Char → List Char → Option (String × List Char)
  | 0, _, _ => none
  | _ + 1, [], _ => none
  | fuel + 1, c :: cs, seen =>
    if c = '"' then some (String.mk seen.reverse, cs)
    else if c = '\\' then
      match cs with
      | [] => none
      | e :: rest =>
        if e = '"' || e = '\\' || e = '/' then stringBody fuel rest (e :: seen)
        else if e = 'b' then stringBody fuel rest (Char.ofNat 8 :: seen)
        else if e = 'f' then stringBody fuel rest (Char.ofNat 12 :: seen)
        else if e = 'n' then stringBody fuel rest ('\n' :: seen)
        else if e = 'r' then stringBody fuel rest ('\r' :: seen)
        else if e = 't' then stringBody fuel rest ('\t' :: seen)
        else if e = 'u' then
          match getu4 rest with
          | none => none
          | some (rr, rest1) =>
            if 0xd800 ≤ rr ∧ rr < 0xe000 then
              match rest1 with
              | '\\' :: 'u' :: rest2 =>
                match getu4 rest2 with
                | some (rr1, rest3) =>
                  if rr < 0xdc00 ∧ 0xdc00 ≤ rr1 ∧ rr1 < 0xe000 then
                    stringBody fuel rest3
                      (Char.ofNat ((rr - 0xd800) * 1024 + (rr1 - 0xdc00) + 0x10000) :: seen)
                  else stringBody fuel rest1 (Char.ofNat 0xfffd :: seen)
                | none => none
              | _ => stringBody fuel rest1 (Char.ofNat 0xfffd :: seen)
            else stringBody fuel rest1 (Char.ofNat rr :: seen)
        else none
    else if c.toNat < 32 then none
    else stringBody fuel cs (c :: seen)

/-- The input with leading decimal digits dropped. -/
def skipDigits : List Char → List Char
  | [] => []
  | c :: cs => if c.isDigit then skipDigits cs else c :: cs

/-- The exponent of a number, if any: `e` or `E`, an optional sign, at least one digit. -/
def exponent : List Char → Option (List Char)
  | c :: cs =>
    if c = 'e' || c = 'E' then
      match cs with
      | d :: ds =>
        if d = '+' || d = '-' then
          match ds with
          | x :: xs => if x.isDigit then some (skipDigits xs) else none
          | [] => none
        else if d.isDigit then some (skipDigits ds)
        else none
      | [] => none
    else some (c :: cs)
  | [] => some []

/-- The fraction and exponent of a number, if any. -/
def fraction : List Char → Option (List Char)
  | '.' :: d :: ds => if d.isDigit then exponent (skipDigits ds) else none
  | '.' :: [] => none
  | cs => exponent cs

/-- The digits of a number after its optional sign: a lone `0` or a digit string without
leading zero, then fraction and exponent. -/
def unsignedNumber : List Char → Option (List Char)
  | [] => none
  | c :: cs =>
    if c = '0' then fraction cs
    else if c.isDigit then fraction (skipDigits cs)
    else none

/-- Go `maxNestingDepth`: the scanner rejects arrays and objects nested deeper than this. -/
def maxNestingDepth : Nat := 10000

mutual

/-- One JSON value at the head of the input (no leading space) and the input after it;
`depth` is the number of arrays and objects that are open around it (the length of the
scanner's `parseState`), and opening one more beyond `maxNestingDepth` is an error. -/
def value : Nat → Nat → List Char → Option (Value × List Char)
  | 0, _, _ => none
  | _ + 1, _, [] => none
  | fuel + 1, depth, c :: cs =>
    if c = '[' then
      if depth + 1 > maxNestingDepth then none
      else
        match skipSpace cs with
        | ']' :: rest => some (Value.array [], rest)
        | rest => elements fuel (depth + 1) rest []
    else if c = '{' then
      if depth + 1 > maxNestingDepth then none
      else
        match skipSpace cs with
        | '}' :: rest => some (Value.object [], rest)
        | rest => members fuel (depth + 1) rest []
    else if c = '"' then
      match stringBody (cs.length + 1) cs [] with
      | some (s, rest) => some (Value.string s, rest)
      | none => none
    else if c = '-' then
      match unsignedNumber cs with
      | some rest => some (Value.number, rest)
      | none => none
    else if c.isDigit then
      match unsignedNumber (c :: cs) with
      | some rest => some (Value.number, rest)
      | none => none
    else if ['t', 'r', 'u', 'e'].isPrefixOf (c :: cs) then some (Value.bool true, cs.drop 3)
    else if ['f', 'a', 'l', 's', 'e'].isPrefixOf (c :: cs) then some (Value.bool false, cs.drop 4)
    else if ['n', 'u', 'l', 'l'].isPrefixOf (c :: cs) then some (Value.null, cs.drop 3)
    else none

/-- The elements of an array from the head of the input (a value is due) to its closing
bracket; `seen` holds the elements already read, reversed, and `depth` counts the array. -/
def elements : Nat → Nat → List Char → List Value → Option (Value × List Char)
  | 0, _, _, _ => none
  | fuel + 1, depth, cs, seen =>
    match value fuel depth cs with
    | none => none
    | some (v, rest) =>
      match skipSpace rest with
      | ',' :: rest1 => elements fuel depth (skipSpace rest1) (v :: seen)
      | ']' :: rest1 => some (Value.array (v :: seen).reverse, rest1)
      | _ => none

/-- The members of an object from the head of the input (a key is due) to its closing
brace; `seen` holds the members already read, reversed, and `depth` counts the object. -/
def members : Nat → Nat → List Char → List (String × Value) → Option (Value × List Char)
  | 0, _, _, _ => none
  | _ + 1, _, [], _ => none
  | fuel + 1, depth, c :: cs, seen =>
    if c = '"' then
      match stringBody (cs.length + 1) cs [] with
      | none => none
      | some (k, rest) =>
        match skipSpace rest with
        | ':' :: rest1 =>
          match value fuel depth (skipSpace rest1) with
          | none => none
          | some (v, rest2) =>
            match skipSpace rest2 with
            | ',' :: rest3 => members fuel depth (skipSpace rest3) ((k, v) :: seen)
            | '}' :: rest3 => some (Value.object ((k, v) :: seen).reverse, rest3)
            | _ => none
        | _ => none
    else none

end

/-- The JSON value that the whole input spells, white space around it allowed; `none` when
Go `checkValid` rejects the input. -/
def parse (data : List Char) : Option Value :=
  match value (2 * data.length + 2) 0 (skipSpace data) with
  | none => none
  | some (v, rest) => if skipSpace rest = [] then some v else none

/-- What decoding one array element into a `string` stores: the text of a string literal,
and nothing (the element stays `""`) for anything else. -/
def elementString : Value → String
  | Value.string s => s
  | _ => ""

/-- If decoding one array element into a `string` records an `UnmarshalTypeError`: `null` is
passed over silently, a boolean, number, array or object is an error. -/
def elementMismatch : Value → Bool
  | Value.string _ => false
  | Value.null => false
  | _ => true

/-- Go `json.Unmarshal(data, &list)` for a nil `list []string`: the slice it leaves and its
error.  A syntax error leaves the slice untouched; `null` sets it to nil; an array sets one
element per JSON element and reports the first that is no string; any other value is a type
error that leaves the slice untouched. -/
def UnmarshalStrings (data : String) : List String × Option Error :=
  match parse data.data with
  | none => ([], some (Error.other "json: syntax error"))
  | some Value.null => ([], none)
  | some (Value.array elems) =>
    (elems.map elementString,
      if elems.any elementMismatch then
        some (Error.other "json: cannot unmarshal into Go value of type string")
      else none)
  | some _ => ([], some (Error.other "json: cannot unmarshal into Go value of type []string"))

end json

/-! ## Auxiliary definitions used to state the theorems -/

section StatementDefs

variable {σ : Type}

/-- The world state after `n` calls of the instance-GUID generator, started in `s`. -/
def genWorld (a : AuctionCellRep σ) (s : σ) : Nat → σ
  | 0 => s
  | n + 1 => (a.generateInstanceGuid (genWorld a s n)).2

/-- What one iteration of `lrpsToAllocationRequest` submits for `lrp` when the generator is
called in world state `w`: nothing when the generator or the resolver fails. -/
def translateLRP (I : Imports) (a : AuctionCellRep σ) (w : σ) (lrp : LRP) :
    Option executor.AllocationRequest :=
  match (a.generateInstanceGuid w).1.2 with
  | some _ => none
  | none =>
    match (PathForRootFS lrp.RootFs a.stackPathMap).2 with
    | some _ => none
    | none =>
      some (executor.NewAllocationRequest
        (I.LRPContainerGuid lrp.ProcessGuid (a.generateInstanceGuid w).1.1)
        (executor.NewResource lrp.MemoryMB lrp.DiskMB lrp.MaxPids
          (PathForRootFS lrp.RootFs a.stackPathMap).1)
        (lrpTags I lrp (a.generateInstanceGuid w).1.1))

/-- The LRPs of a batch from index `n` on, each with the pointer that the loop takes and with
what its iteration submits; the `i`-th LRP meets the generator after `i` earlier calls. -/
def lrpEntries (I : Imports) (a : AuctionCellRep σ) (s : σ) (n : Nat) (lrps : List LRP) :
    List (LRPRef × Option executor.AllocationRequest) :=
  (lrps.enumFrom n).map fun p =>
    ({ index := p.1, elem := p.2 }, translateLRP I a (genWorld a s p.1) p.2)

/-- The writes to `lrpMap` made for a list of entries. -/
def recordLRPs (entries : List (LRPRef × Option executor.AllocationRequest))
    (lrpMap : GoMap LRPRef) : GoMap LRPRef :=
  entries.foldl (fun m e =>
    match e.2 with
    | some req => GoMap.set m req.Guid e.1
    | none => m) lrpMap

/-- The effect of a list of entries on the three results of `lrpsToAllocationRequest`. -/
def applyLRPEntries (entries : List (LRPRef × Option executor.AllocationRequest))
    (acc : LRPTranslation) : LRPTranslation :=
  { requests := acc.requests ++ entries.filterMap (fun e => e.2),
    lrpMap := recordLRPs entries acc.lrpMap,
    untranslatedLRPs :=
      acc.untranslatedLRPs ++ (entries.filter (fun e => e.2.isNone)).map (fun e => e.1.elem) }

/-- The `i`-th LRP of a batch started in world `s` fails translation: the generator fails on
its `i`-th call, or the resolver fails on the root filesystem of the LRP. -/
def lrpFailsTranslation (a : AuctionCellRep σ) (s : σ) (i : Nat) (lrp : LRP) : Bool :=
  (a.generateInstanceGuid (genWorld a s i)).1.2.isSome ||
    (PathForRootFS lrp.RootFs a.stackPathMap).2.isSome

/-- The allocation request built for the `i`-th LRP of a batch started in world `s`. -/
def lrpRequest (I : Imports) (a : AuctionCellRep σ) (s : σ) (i : Nat) (lrp : LRP) :
    executor.AllocationRequest :=
  executor.NewAllocationRequest
    (I.LRPContainerGuid lrp.ProcessGuid (a.generateInstanceGuid (genWorld a s i)).1.1)
    (executor.NewResource lrp.MemoryMB lrp.DiskMB lrp.MaxPids
      (PathForRootFS lrp.RootFs a.stackPathMap).1)
    (lrpTags I lrp (a.generateInstanceGuid (genWorld a s i)).1.1)

/-- What `lrpsToAllocationRequest` returns for the LRP batch of a `Perform` started in `s`. -/
def lrpBatch (I : Imports) (a : AuctionCellRep σ) (s : σ) (lrps : List LRP) : LRPTranslation :=
  (lrpsToAllocationRequest I a lrps { world := s, calls := [] }).1

/-- The container identifiers submitted for the LRP batch, in order. -/
def lrpBatchGuids (I : Imports) (a : AuctionCellRep σ) (s : σ) (lrps : List LRP) : List String :=
  (lrpBatch I a s lrps).requests.map (fun r => r.Guid)

/-- The answer of the runtime to the `AllocateContainers` call made for the LRP batch: the
call is made with the translated requests, in the world that the translation leaves. -/
def lrpBatchReply (I : Imports) (a : AuctionCellRep σ) (s : σ) (lrps : List LRP) :
    List executor.AllocationFailure × Option Error :=
  (a.client.AllocateContainers
    (lrpsToAllocationRequest I a lrps { world := s, calls := [] }).2.world
    (lrpBatch I a s lrps).requests).1

/-- The world in which the task block of `Perform` starts: the world left by the LRP block,
which runs only for a non-empty LRP list. -/
def worldAfterLRPs (I : Imports) (a : AuctionCellRep σ) (s : σ) (lrps : List LRP) : σ :=
  if lrps.length > 0 then
    (a.client.AllocateContainers
      (lrpsToAllocationRequest I a lrps { world := s, calls := [] }).2.world
      (lrpBatch I a s lrps).requests).2
  else s

/-- The answer of the runtime to the `AllocateContainers` call made for the task batch. -/
def taskBatchReply (I : Imports) (a : AuctionCellRep σ) (s : σ) (lrps : List LRP)
    (tasks : List Task) : List executor.AllocationFailure × Option Error :=
  (a.client.AllocateContainers (worldAfterLRPs I a s lrps)
    (tasksToAllocationRequests I a tasks).requests).1

/-- What one iteration of `tasksToAllocationRequests` submits for `task`: nothing when the
resolver fails. -/
def translateTask (I : Imports) (a : AuctionCellRep σ) (task : Task) :
    Option executor.AllocationRequest :=
  match (PathForRootFS task.RootFs a.stackPathMap).2 with
  | some _ => none
  | none =>
    some (executor.NewAllocationRequest task.TaskGuid
      (executor.NewResource task.MemoryMB task.DiskMB task.MaxPids
        (PathForRootFS task.RootFs a.stackPathMap).1)
      (GoMap.set (GoMap.set [] I.LifecycleTag I.TaskLifecycle) I.DomainTag task.Domain))

/-- The writes to `taskMap` made for the tasks of a batch from index `n` on. -/
def recordTasks (n : Nat) (tasks : List Task) (taskMap : GoMap TaskRef) : GoMap TaskRef :=
  (tasks.enumFrom n).foldl
    (fun m p => GoMap.set m p.2.TaskGuid { index := p.1, elem := p.2 }) taskMap

/-- The answer to the `ListContainers` query of a `State` started in `s`. -/
def containersReply (a : AuctionCellRep σ) (s : σ) : (List executor.Container × Option Error) × σ :=
  a.client.ListContainers s

/-- The answer to the `TotalResources` query, made in the world left by `ListContainers`. -/
def totalResourcesReply (a : AuctionCellRep σ) (s : σ) :
    (executor.ExecutorResources × Option Error) × σ :=
  a.client.TotalResources (containersReply a s).2

/-- The answer to the `RemainingResources` query, made in the world left by
`TotalResources`. -/
def remainingResourcesReply (a : AuctionCellRep σ) (s : σ) :
    (executor.ExecutorResources × Option Error) × σ :=
  a.client.RemainingResources (totalResourcesReply a s).2

/-- The answer to the `VolumeDrivers` query, made in the world left by
`RemainingResources`. -/
def volumeDriversReply (a : AuctionCellRep σ) (s : σ) : (List String × Option Error) × σ :=
  a.client.VolumeDrivers (remainingResourcesReply a s).2

end StatementDefs

section StateDefs

/-- The resource that `State` records for a container: its memory, disk and process limit,
each converted to `int32`. -/
def containerResource (c : executor.Container) : Resource :=
  { MemoryMB := toInt32 c.MemoryMB, DiskMB := toInt32 c.DiskMB, MaxPids := toInt32 c.MaxPids }

/-- The placement constraint that `State` records for a container with tag map `tags`: the
recorded root-filesystem path and what `json.Unmarshal` leaves for the two list tags. -/
def containerConstraint (I : Imports) (tags : executor.Tags) (c : executor.Container) :
    PlacementConstraint :=
  { RootFs := c.RootFSPath,
    VolumeDrivers := (I.jsonUnmarshalStrings (GoMap.getD tags I.VolumeDriversTag)).1,
    PlacementTags := (I.jsonUnmarshalStrings (GoMap.getD tags I.PlacementTagsTag)).1 }

/-- The LRP record that one iteration of the loop of `State` appends for a container, if
any. -/
def lrpRecord (I : Imports) (cellID : String) (c : executor.Container) : Option LRP :=
  match c.Tags with
  | none => none
  | some tags =>
    if GoMap.getD tags I.LifecycleTag = I.LRPLifecycle then
      match (I.ActualLRPKeyFromTags tags).2 with
      | some _ => none
      | none =>
        match (I.ActualLRPInstanceKeyFromContainer c cellID).2 with
        | some _ => none
        | none =>
          some (NewLRP (I.ActualLRPInstanceKeyFromContainer c cellID).1.InstanceGuid
            (I.ActualLRPKeyFromTags tags).1 (containerResource c) (containerConstraint I tags c))
    else none

/-- The task record that one iteration of the loop of `State` appends for a container, if
any. -/
def taskRecord (I : Imports) (c : executor.Container) : Option Task :=
  match c.Tags with
  | none => none
  | some tags =>
    if GoMap.getD tags I.LifecycleTag = I.LRPLifecycle then none
    else if GoMap.getD tags I.LifecycleTag = I.TaskLifecycle then
      some (NewTask c.Guid (GoMap.getD tags I.DomainTag) (containerResource c)
        (containerConstraint I tags c))
    else none

end StateDefs

section StateClaimDefs

/-- A container is missing required tags: its tag map is nil, or its lifecycle tag is absent
or holds neither the LRP nor the task marker, or it holds the LRP marker and the LRP key or
the instance key cannot be extracted. -/
def missingRequiredTags (I : Imports) (cellID : String) (c : executor.Container) : Bool :=
  match c.Tags with
  | none => true
  | some tags =>
    (GoMap.lookup tags I.LifecycleTag).isNone ||
    (decide (GoMap.getD tags I.LifecycleTag ≠ I.LRPLifecycle) &&
      decide (GoMap.getD tags I.LifecycleTag ≠ I.TaskLifecycle)) ||
    (decide (GoMap.getD tags I.LifecycleTag = I.LRPLifecycle) &&
      ((I.ActualLRPKeyFromTags tags).2.isSome ||
        (I.ActualLRPInstanceKeyFromContainer c cellID).2.isSome))

end StateClaimDefs

/-! ## Sample values, used to instantiate the theorems -/

namespace Sample

/-- Sample tag keys and helpers: the container identifier joins process and instance
identifier; every tag decodes to the empty list. -/
def imports : Imports :=
  { DomainTag := "domain", ProcessGuidTag := "process-guid", ProcessIndexTag := "process-index",
    LifecycleTag := "lifecycle", InstanceGuidTag := "instance-guid",
    PlacementTagsTag := "placement-tags", VolumeDriversTag := "volume-drivers",
    LRPLifecycle := "lrp", TaskLifecycle := "task",
    LRPContainerGuid := fun processGuid instanceGuid => processGuid ++ "-" ++ instanceGuid,
    ActualLRPKeyFromTags := fun _ =>
      ({ ProcessGuid := "", Index := 0, Domain := "" }, some (Error.other "no key")),
    ActualLRPInstanceKeyFromContainer := fun _ _ =>
      ({ InstanceGuid := "", CellId := "" }, some (Error.other "no instance key")),
    jsonUnmarshalStrings := fun _ => ([], none) }

/-- A sample executor client on world states that count the generator calls: the four
queries and the health probe answer from the arguments, `AllocateContainers` answers
`allocate`. -/
def client (containers : List executor.Container × Option Error)
    (volumeDrivers : List String × Option Error) (healthy : Bool)
    (allocate : List executor.AllocationRequest → List executor.AllocationFailure × Option Error) :
    executor.Client Nat :=
  { ListContainers := fun n => (containers, n),
    TotalResources := fun n => (({ MemoryMB := 4096, DiskMB := 8192, Containers := 250 }, none), n),
    RemainingResources := fun n =>
      (({ MemoryMB := 2048, DiskMB := 4096, Containers := 200 }, none), n),
    VolumeDrivers := fun n => (volumeDrivers, n),
    Healthy := fun n => (healthy, n),
    AllocateContainers := fun n requests => (allocate requests, n) }

/-- A sample cell that knows the stack `stack-a`; its generator answers `guid n` on call
number `n` and its `AllocateContainers` answers `allocate`. -/
def cell (evacuating : Bool) (guid : Nat → String × Option Error)
    (allocate : List executor.AllocationRequest → List executor.AllocationFailure × Option Error) :
    AuctionCellRep Nat :=
  { cellID := "cell-1", stackPathMap := [("stack-a", "/var/stacks/a")],
    rootFSProviders := [], stack := "", zone := "z1",
    generateInstanceGuid := fun n => (guid n, n + 1),
    client := client ([], none) ([], none) true allocate,
    evacuationReporter := fun _ => evacuating,
    placementTags := [], optionalPlacementTags := [] }

/-- A generator that fails on its second call only. -/
def guidFailingSecond (n : Nat) : String × Option Error :=
  if n = 0 then ("ig-0", none)
  else if n = 1 then ("", some (Error.other "no instance guid"))
  else ("ig-2", none)

/-- A generator that never fails and gives a different identifier to each of three calls. -/
def guidDistinct (n : Nat) : String × Option Error :=
  if n = 0 then ("ig-0", none) else if n = 1 then ("ig-1", none) else ("ig-2", none)

/-- An LRP start-request on the known stack. -/
def lrpA : LRP :=
  { ProcessGuid := "pg-a", Index := 0, Domain := "d", PlacementTags := [], VolumeDrivers := [],
    RootFs := "preloaded:stack-a", MemoryMB := 512, DiskMB := 1024, MaxPids := 10,
    InstanceGUID := "" }

/-- An LRP start-request with a non-preloaded root filesystem. -/
def lrpB : LRP :=
  { ProcessGuid := "pg-b", Index := 1, Domain := "d", PlacementTags := [], VolumeDrivers := [],
    RootFs := "docker:///image", MemoryMB := 256, DiskMB := 512, MaxPids := 10,
    InstanceGUID := "" }

/-- An LRP start-request on a stack the cell does not know. -/
def lrpC : LRP :=
  { ProcessGuid := "pg-c", Index := 2, Domain := "d", PlacementTags := [], VolumeDrivers := [],
    RootFs := "preloaded:stack-z", MemoryMB := 128, DiskMB := 128, MaxPids := 10,
    InstanceGUID := "" }

/-- A task on the known stack. -/
def taskA : Task :=
  { PlacementTags := [], VolumeDrivers := [], RootFs := "preloaded:stack-a", MemoryMB := 64,
    DiskMB := 64, MaxPids := 5, TaskGuid := "tg-a", Domain := "d" }

/-- A task on a stack the cell does not know. -/
def taskZ : Task :=
  { PlacementTags := [], VolumeDrivers := [], RootFs := "preloaded:stack-z", MemoryMB := 64,
    DiskMB := 64, MaxPids := 5, TaskGuid := "tg-z", Domain := "d" }

/-- A runtime answer: every request is refused. -/
def refuseAll (requests : List executor.AllocationRequest) :
    List executor.AllocationFailure × Option Error :=
  (requests.map fun r => { AllocationRequest := r, ErrorMsg := "insufficient resources" }, none)

/-- A runtime answer: the first request is refused, the others are accepted. -/
def refuseFirst (requests : List executor.AllocationRequest) :
    List executor.AllocationFailure × Option Error :=
  ((requests.take 1).map fun r => { AllocationRequest := r, ErrorMsg := "insufficient resources" },
    none)

/-- A runtime answer: the call itself fails. -/
def callFails (_ : List executor.AllocationRequest) :
    List executor.AllocationFailure × Option Error :=
  ([], some (Error.other "connection refused"))

/-- A runtime answer that reports a failure under the identifier `tg-z` whatever it is
given, also for an empty batch. -/
def blameTaskZ (_ : List executor.AllocationRequest) :
    List executor.AllocationFailure × Option Error :=
  ([{ AllocationRequest :=
        { Guid := "tg-z",
          Resource := { MemoryMB := 64, DiskMB := 64, MaxPids := 5, RootFSPath := "" },
          Tags := [] },
      ErrorMsg := "insufficient resources" }], none)

/-- A runtime answer that reports a failure under the container identifier `pg-c-ig-0`,
the one of `lrpC` with the first instance identifier of `guidDistinct`, whatever it is given. -/
def blameLRPC (_ : List executor.AllocationRequest) :
    List executor.AllocationFailure × Option Error :=
  ([{ AllocationRequest :=
        { Guid := "pg-c-ig-0",
          Resource := { MemoryMB := 128, DiskMB := 128, MaxPids := 10, RootFSPath := "" },
          Tags := [] },
      ErrorMsg := "insufficient resources" }], none)

/-- A decimal numeral without sign as a number, `none` for anything else. -/
def atoi (s : String) : Option Nat :=
  if s.data = [] then none
  else s.data.foldl (fun acc c =>
    match acc with
    | some n => if c.isDigit then some (n * 10 + (c.toNat - '0'.toNat)) else none
    | none => none) (some 0)

/-- A sample stand-in for `rep.ActualLRPKeyFromTags`, which is not under src/: process
identifier, index and domain are read from their tags; it fails on an index that is no
numeral and on an empty process identifier or domain. -/
def actualLRPKeyFromTags (tags : executor.Tags) : ActualLRPKey × Option Error :=
  match atoi (GoMap.getD tags "process-index") with
  | none => ({ ProcessGuid := "", Index := 0, Domain := "" }, some (Error.other "invalid index"))
  | some index =>
    if GoMap.getD tags "process-guid" = "" ∨ GoMap.getD tags "domain" = "" then
      ({ ProcessGuid := "", Index := 0, Domain := "" }, some (Error.other "invalid key"))
    else
      ({ ProcessGuid := GoMap.getD tags "process-guid", Index := index,
         Domain := GoMap.getD tags "domain" }, none)

/-- A sample stand-in for `rep.ActualLRPInstanceKeyFromContainer`, which is not under src/:
the instance identifier is read from its tag; it fails on a nil tag map and on an empty
instance or cell identifier. -/
def actualLRPInstanceKeyFromContainer (c : executor.Container) (cellID : String) :
    ActualLRPInstanceKey × Option Error :=
  match c.Tags with
  | none => ({ InstanceGuid := "", CellId := "" }, some (Error.other "missing tags"))
  | some tags =>
    if GoMap.getD tags "instance-guid" = "" ∨ cellID = "" then
      ({ InstanceGuid := "", CellId := "" }, some (Error.other "invalid instance key"))
    else ({ InstanceGuid := GoMap.getD tags "instance-guid", CellId := cellID }, none)

/-- Sample tag keys and helpers with the two sample extractors and the decoder of
`encoding/json`. -/
def importsDecoding : Imports :=
  { imports with
    ActualLRPKeyFromTags := actualLRPKeyFromTags,
    ActualLRPInstanceKeyFromContainer := actualLRPInstanceKeyFromContainer,
    jsonUnmarshalStrings := json.UnmarshalStrings }

/-- A sample cell whose runtime reports `containers` and answers `healthy` to the probe. -/
def stateCell (containers : List executor.Container) (healthy : Bool) : AuctionCellRep Nat :=
  { cellID := "cell-1", stackPathMap := [("stack-a", "/var/stacks/a")],
    rootFSProviders := [], stack := "", zone := "z1",
    generateInstanceGuid := fun n => (guidDistinct n, n + 1),
    client := client (containers, none) (["driver-1"], none) healthy refuseAll,
    evacuationReporter := fun _ => false,
    placementTags := ["pt-1"], optionalPlacementTags := [] }

/-- The tags of an LRP container for process `p1`, index `0`. -/
def lrpTagsP1 : executor.Tags :=
  [("lifecycle", "lrp"), ("domain", "d"), ("process-guid", "p1"), ("process-index", "0"),
    ("instance-guid", "ig-0"), ("placement-tags", "[\"pt-1\"]"), ("volume-drivers", "[]")]

/-- A created LRP container for process `p1`, index `0`, memory 512 and disk 1024, recorded
with the resolved path of `stack-a`. -/
def containerP1 : executor.Container :=
  { Guid := "ig-0", MemoryMB := 512, DiskMB := 1024, MaxPids := 10,
    RootFSPath := "/var/stacks/a", Tags := some lrpTagsP1, State := "created" }

/-- The same LRP container, recorded with the preloaded reference instead of its path. -/
def containerP1Preloaded : executor.Container :=
  { containerP1 with RootFSPath := "preloaded:stack-a" }

/-- A running task container whose placement tags are a JSON array with a number in it. -/
def containerTask : executor.Container :=
  { Guid := "tg-a", MemoryMB := 64, DiskMB := 64, MaxPids := 5, RootFSPath := "/var/stacks/a",
    Tags := some [("lifecycle", "task"), ("domain", "d"), ("placement-tags", "[\"a\", 1]")],
    State := "running" }

/-- A reserved container without tag map. -/
def containerNoTags : executor.Container :=
  { Guid := "c-0", MemoryMB := 32, DiskMB := 32, MaxPids := 1, RootFSPath := "", Tags := none,
    State := "reserved" }

/-- An initializing container whose lifecycle tag is neither marker. -/
def containerOther : executor.Container :=
  { Guid := "c-1", MemoryMB := 32, DiskMB := 32, MaxPids := 1, RootFSPath := "",
    Tags := some [("lifecycle", "check")], State := "initializing" }

/-- A running task container whose recorded memory does not fit in 32 bits. -/
def containerHuge : executor.Container :=
  { Guid := "tg-h", MemoryMB := 4294967808, DiskMB := 64, MaxPids := 5,
    RootFSPath := "/var/stacks/a", Tags := some [("lifecycle", "task"), ("domain", "d")],
    State := "running" }

/-- A generator that never fails and gives the same identifier to every call. -/
def guidSame (_ : Nat) : String × Option Error := ("ig-0", none)

/-- A second LRP start-request for the process of `lrpA`, at index 1. -/
def lrpA1 : LRP :=
  { lrpA with Index := 1 }

end Sample

/-! ## The root-filesystem resolver: theorems -/

/-- The empty string parses to the URL with no scheme. -/
theorem url_Parse_empty : url.Parse "" = .ok { Scheme := "", Opaque := "", RawQuery := "" } := by
  decide

/-- A reference that parses with a non-empty scheme is not the empty string. -/
theorem ne_empty_of_scheme (rootFS : String) (u : url.URL) (hu : url.Parse rootFS = .ok u)
    (hs : u.Scheme ≠ "") : rootFS ≠ "" := by
  intro h
  subst h
  rw [url_Parse_empty] at hu
  cases hu
  exact hs rfl

/-- C7 as stated fails: `preloaded:stack-b#%zz` is the reference `preloaded:stack-b`, of
scheme `preloaded` and opaque part `stack-b`, which the map does not hold, followed by the
fragment `%zz`.  `url.Parse` rejects the escape in the fragment and the resolver returns the
parse error, not `ErrPreloadedRootFSNotFound`. -/
theorem pathForRootFS_unknown_stack_counterexample :
    url.cut '#' ("preloaded:stack-b#%zz" : String).data
      = (("preloaded:stack-b" : String).data, ("%zz" : String).data) ∧
    url.Parse "preloaded:stack-b"
      = .ok { Scheme := models.PreloadedRootFSScheme, Opaque := "stack-b", RawQuery := "" } ∧
    url.getScheme ("preloaded:stack-b#%zz" : String).data
      = .ok (models.PreloadedRootFSScheme.data, ("stack-b#%zz" : String).data) ∧
    GoMap.lookup ([("stack-a", "/var/stacks/a")] : StackPathMap) "stack-b" = none ∧
    PathForRootFS "preloaded:stack-b#%zz" [("stack-a", "/var/stacks/a")]
      = ("", some (Error.urlError "invalid URL escape")) ∧
    PathForRootFS "preloaded:stack-b#%zz" [("stack-a", "/var/stacks/a")]
      ≠ ("", some ErrPreloadedRootFSNotFound) := by
  decide

/-- C7, amended: a reference that `url.Parse` accepts, with one of the two preloaded schemes
and an opaque part that is not a key of the stack map, resolves to the empty path with
`ErrPreloadedRootFSNotFound`, whatever the rest of the reference (query, fragment) and of the
map. -/
theorem pathForRootFS_unknown_stack (rootFS : String) (stackPathMap : StackPathMap) (u : url.URL)
    (hu : url.Parse rootFS = .ok u)
    (hs : u.Scheme = models.PreloadedRootFSScheme ∨ u.Scheme = models.PreloadedOCIRootFSScheme)
    (hk : GoMap.lookup stackPathMap u.Opaque = none) :
    PathForRootFS rootFS stackPathMap = ("", some ErrPreloadedRootFSNotFound) := by
  have hne : rootFS ≠ "" := by
    apply ne_empty_of_scheme rootFS u hu
    rcases hs with h | h <;> rw [h] <;> decide
  unfold PathForRootFS
  rw [if_neg hne, hu]
  rcases hs with h | h
  · simp only [h, if_true, hk]
  · have hd : models.PreloadedOCIRootFSScheme ≠ models.PreloadedRootFSScheme := by decide
    simp only [h, if_neg hd, if_true, hk]

/-- Witness for C7, amended: `preloaded+layer:stack-b?layer=x#top` against a map that only knows
`stack-a`. -/
theorem pathForRootFS_unknown_stack_witness :
    PathForRootFS "preloaded+layer:stack-b?layer=x#top" [("stack-a", "/var/stacks/a")]
      = ("", some ErrPreloadedRootFSNotFound) :=
  pathForRootFS_unknown_stack "preloaded+layer:stack-b?layer=x#top" [("stack-a", "/var/stacks/a")]
    { Scheme := "preloaded+layer", Opaque := "stack-b", RawQuery := "layer=x" }
    (by decide) (Or.inr (by decide)) (by decide)

/-- C8 as stated fails: `preloaded:stack-a#%zz` and `preloaded+layer:stack-a?layer=x#%zz`
are references of a preloaded scheme whose opaque part, `stack-a`, the map holds, followed by
the fragment `%zz`.  `url.Parse` rejects the escape in the fragment and the resolver does not
succeed: it returns the empty path and the parse error. -/
theorem pathForRootFS_known_stack_counterexample :
    url.cut '#' ("preloaded:stack-a#%zz" : String).data
      = (("preloaded:stack-a" : String).data, ("%zz" : String).data) ∧
    url.Parse "preloaded:stack-a"
      = .ok { Scheme := models.PreloadedRootFSScheme, Opaque := "stack-a", RawQuery := "" } ∧
    url.cut '#' ("preloaded+layer:stack-a?layer=x#%zz" : String).data
      = (("preloaded+layer:stack-a?layer=x" : String).data, ("%zz" : String).data) ∧
    url.Parse "preloaded+layer:stack-a?layer=x"
      = .ok { Scheme := models.PreloadedOCIRootFSScheme, Opaque := "stack-a",
              RawQuery := "layer=x" } ∧
    GoMap.lookup ([("stack-a", "/var/stacks/a")] : StackPathMap) "stack-a"
      = some "/var/stacks/a" ∧
    PathForRootFS "preloaded:stack-a#%zz" [("stack-a", "/var/stacks/a")]
      = ("", some (Error.urlError "invalid URL escape")) ∧
    PathForRootFS "preloaded:stack-a#%zz" [("stack-a", "/var/stacks/a")]
      ≠ ("/var/stacks/a", none) ∧
    PathForRootFS "preloaded+layer:stack-a?layer=x#%zz" [("stack-a", "/var/stacks/a")]
      = ("", some (Error.urlError "invalid URL escape")) ∧
    PathForRootFS "preloaded+layer:stack-a?layer=x#%zz" [("stack-a", "/var/stacks/a")]
      ≠ ("preloaded+layer:/var/stacks/a?layer=x", none) := by
  decide

/-- C8, amended: a reference that `url.Parse` accepts, with a preloaded scheme and an opaque
part that is mapped to `p`, resolves without error; the plain preloaded scheme gives exactly
`p` (the query is dropped), the preloaded OCI scheme gives scheme, colon, `p`, question mark
and the raw query (so a reference without query gives a result ending in the question
mark). -/
theorem pathForRootFS_known_stack (rootFS : String) (stackPathMap : StackPathMap) (u : url.URL)
    (p : String) (hu : url.Parse rootFS = .ok u)
    (hk : GoMap.lookup stackPathMap u.Opaque = some p) :
    (u.Scheme = models.PreloadedRootFSScheme → PathForRootFS rootFS stackPathMap = (p, none)) ∧
    (u.Scheme = models.PreloadedOCIRootFSScheme →
      PathForRootFS rootFS stackPathMap
        = (models.PreloadedOCIRootFSScheme ++ ":" ++ p ++ "?" ++ u.RawQuery, none) ∧
      (u.RawQuery = "" →
        (PathForRootFS rootFS stackPathMap).1 = models.PreloadedOCIRootFSScheme ++ ":" ++ p ++ "?")) := by
  have hd : models.PreloadedOCIRootFSScheme ≠ models.PreloadedRootFSScheme := by decide
  constructor
  · intro h
    have hne : rootFS ≠ "" := by
      apply ne_empty_of_scheme rootFS u hu
      rw [h]; decide
    unfold PathForRootFS
    rw [if_neg hne, hu]
    simp only [h, if_true, hk]
  · intro h
    have hne : rootFS ≠ "" := by
      apply ne_empty_of_scheme rootFS u hu
      rw [h]; decide
    have key : PathForRootFS rootFS stackPathMap
        = (models.PreloadedOCIRootFSScheme ++ ":" ++ p ++ "?" ++ u.RawQuery, none) := by
      unfold PathForRootFS
      rw [if_neg hne, hu]
      simp only [h, if_neg hd, if_true, hk]
    refine ⟨key, ?_⟩
    intro hq
    rw [key, hq]
    simp

/-- Witness for C8, amended: the stack `stack-a` under the plain scheme with a query, under the OCI
scheme with a query, and under the OCI scheme without query. -/
theorem pathForRootFS_known_stack_witness :
    PathForRootFS "preloaded:stack-a?layer=x" [("stack-a", "/var/stacks/a")]
      = ("/var/stacks/a", none) ∧
    PathForRootFS "preloaded+layer:stack-a?layer=x" [("stack-a", "/var/stacks/a")]
      = ("preloaded+layer:/var/stacks/a?layer=x", none) ∧
    (PathForRootFS "preloaded+layer:stack-a" [("stack-a", "/var/stacks/a")]).1
      = "preloaded+layer:/var/stacks/a?" :=
  ⟨(pathForRootFS_known_stack "preloaded:stack-a?layer=x" [("stack-a", "/var/stacks/a")]
      { Scheme := "preloaded", Opaque := "stack-a", RawQuery := "layer=x" } "/var/stacks/a"
      (by decide) (by decide)).1 (by decide),
    ((pathForRootFS_known_stack "preloaded+layer:stack-a?layer=x" [("stack-a", "/var/stacks/a")]
      { Scheme := "preloaded+layer", Opaque := "stack-a", RawQuery := "layer=x" } "/var/stacks/a"
      (by decide) (by decide)).2 (by decide)).1.trans (by decide),
    (((pathForRootFS_known_stack "preloaded+layer:stack-a" [("stack-a", "/var/stacks/a")]
      { Scheme := "preloaded+layer", Opaque := "stack-a", RawQuery := "" } "/var/stacks/a"
      (by decide) (by decide)).2 (by decide)).2 (by decide)).trans (by decide)⟩

/-- C9 as stated fails: `docker:///a%zz` is not empty and its scheme, `docker`, is neither
preloaded scheme, yet `url.Parse` rejects the escape `%zz` and the resolver returns the
empty path with the parse error instead of the reference. -/
theorem pathForRootFS_unparsable_counterexample :
    ("docker:///a%zz" : String) ≠ "" ∧
    url.getScheme ("docker:///a%zz" : String).data = .ok ("docker".data, "///a%zz".data) ∧
    ("docker" : String) ≠ models.PreloadedRootFSScheme ∧
    ("docker" : String) ≠ models.PreloadedOCIRootFSScheme ∧
    PathForRootFS "docker:///a%zz" [("stack-a", "/var/stacks/a")]
      = ("", some (Error.urlError "invalid URL escape")) ∧
    PathForRootFS "docker:///a%zz" [("stack-a", "/var/stacks/a")] ≠ ("docker:///a%zz", none) := by
  decide

/-- C9, amended: a reference that is empty, or that `url.Parse` accepts with a scheme that is
neither preloaded scheme, is returned unchanged with no error, for every stack map; resolving
the result again gives the same result. -/
theorem pathForRootFS_passthrough (rootFS : String) (stackPathMap : StackPathMap)
    (h : rootFS = "" ∨ ∃ u, url.Parse rootFS = .ok u ∧
      u.Scheme ≠ models.PreloadedRootFSScheme ∧ u.Scheme ≠ models.PreloadedOCIRootFSScheme) :
    PathForRootFS rootFS stackPathMap = (rootFS, none) ∧
    PathForRootFS (PathForRootFS rootFS stackPathMap).1 stackPathMap
      = PathForRootFS rootFS stackPathMap := by
  have key : PathForRootFS rootFS stackPathMap = (rootFS, none) := by
    unfold PathForRootFS
    rcases h with h | ⟨u, hu, h1, h2⟩
    · rw [if_pos h]
    · by_cases he : rootFS = ""
      · rw [if_pos he]
      · rw [if_neg he, hu]
        simp only [if_neg h1, if_neg h2]
  exact ⟨key, by rw [key]; exact key⟩

/-- Witness for C9, amended: a `docker` image reference. -/
theorem pathForRootFS_passthrough_witness :
    PathForRootFS "docker:///cloudfoundry/grace?tag=1" [("stack-a", "/var/stacks/a")]
      = ("docker:///cloudfoundry/grace?tag=1", none) ∧
    PathForRootFS (PathForRootFS "docker:///cloudfoundry/grace?tag=1"
        [("stack-a", "/var/stacks/a")]).1 [("stack-a", "/var/stacks/a")]
      = PathForRootFS "docker:///cloudfoundry/grace?tag=1" [("stack-a", "/var/stacks/a")] :=
  pathForRootFS_passthrough "docker:///cloudfoundry/grace?tag=1" [("stack-a", "/var/stacks/a")]
    (Or.inr ⟨{ Scheme := "docker", Opaque := "", RawQuery := "tag=1" },
      by decide, by decide, by decide⟩)

/-! ## Go maps: lemmas -/

section MapLemmas

variable {V : Type}

theorem GoMap.lookup_append (m m' : GoMap V) (k : String) :
    GoMap.lookup (m ++ m') k = (GoMap.lookup m k).orElse (fun _ => GoMap.lookup m' k) := by
  induction m with
  | nil => simp [GoMap.lookup]
  | cons e m ih =>
    obtain ⟨k', v⟩ := e
    by_cases h : k' = k
    · simp [GoMap.lookup, h]
    · simp [GoMap.lookup, h, ih]

theorem GoMap.lookup_erase (m : GoMap V) (k k' : String) :
    GoMap.lookup (m.filter (fun e => decide (e.1 ≠ k))) k'
      = if k = k' then none else GoMap.lookup m k' := by
  induction m with
  | nil => simp [GoMap.lookup]
  | cons e m ih =>
    obtain ⟨k0, v⟩ := e
    by_cases h0 : k0 = k
    · subst h0
      by_cases h1 : k0 = k'
      · simpa [List.filter, h1] using ih
      · simpa [List.filter, GoMap.lookup, h1] using ih
    · by_cases h1 : k0 = k'
      · subst h1
        have : ¬ k = k0 := fun h => h0 h.symm
        simp [List.filter, GoMap.lookup, h0, this]
      · simpa [List.filter, GoMap.lookup, h0, h1] using ih

/-- After `m[k] = v`, reading `k` gives `v` and every other key reads as before. -/
theorem GoMap.lookup_set (m : GoMap V) (k k' : String) (v : V) :
    GoMap.lookup (GoMap.set m k v) k' = if k = k' then some v else GoMap.lookup m k' := by
  unfold GoMap.set
  rw [GoMap.lookup_append, GoMap.lookup_erase]
  by_cases h : k = k'
  · simp [h, GoMap.lookup]
  · simp only [if_neg h]
    cases hl : GoMap.lookup m k' with
    | none => simp [GoMap.lookup, h]
    | some x => simp

end MapLemmas

/-! ## The translators: what the loops compute -/

section LoopLemmas

variable {σ : Type}

theorem lrpsToAllocationRequestStep_eq (I : Imports) (a : AuctionCellRep σ) (i : Nat) (lrp : LRP)
    (acc : LRPTranslation) (r : Run σ) :
    lrpsToAllocationRequestStep I a i lrp acc r
      = (applyLRPEntries [({ index := i, elem := lrp }, translateLRP I a r.world lrp)] acc,
          { world := (a.generateInstanceGuid r.world).2,
            calls := r.calls ++ [Call.GenerateInstanceGuid] }) := by
  unfold lrpsToAllocationRequestStep translateLRP applyLRPEntries recordLRPs
    callGenerateInstanceGuid
  cases hg : (a.generateInstanceGuid r.world).1.2 with
  | some e => simp [hg]
  | none =>
    cases hp : (PathForRootFS lrp.RootFs a.stackPathMap).2 with
    | some e => simp [hg, hp]
    | none => simp [hg, hp, executor.NewAllocationRequest]

theorem applyLRPEntries_cons (e : LRPRef × Option executor.AllocationRequest)
    (es : List (LRPRef × Option executor.AllocationRequest)) (acc : LRPTranslation) :
    applyLRPEntries (e :: es) acc = applyLRPEntries es (applyLRPEntries [e] acc) := by
  obtain ⟨ref, o⟩ := e
  cases o with
  | none => simp [applyLRPEntries, recordLRPs]
  | some req => simp [applyLRPEntries, recordLRPs]

theorem lrpsToAllocationRequestLoop_eq (I : Imports) (a : AuctionCellRep σ) (s : σ)
    (lrps : List LRP) :
    ∀ (n : Nat) (acc : LRPTranslation) (calls : List Call),
      lrpsToAllocationRequestLoop I a n lrps acc { world := genWorld a s n, calls := calls }
        = (applyLRPEntries (lrpEntries I a s n lrps) acc,
            { world := genWorld a s (n + lrps.length),
              calls := calls ++ List.replicate lrps.length Call.GenerateInstanceGuid }) := by
  induction lrps with
  | nil =>
    intro n acc calls
    simp [lrpsToAllocationRequestLoop, lrpEntries, applyLRPEntries, recordLRPs]
  | cons lrp rest ih =>
    intro n acc calls
    rw [lrpsToAllocationRequestLoop, lrpsToAllocationRequestStep_eq]
    have hw : (a.generateInstanceGuid (genWorld a s n)).2 = genWorld a s (n + 1) := rfl
    simp only [hw]
    rw [ih (n + 1)]
    have he : lrpEntries I a s n (lrp :: rest)
        = ({ index := n, elem := lrp }, translateLRP I a (genWorld a s n) lrp)
            :: lrpEntries I a s (n + 1) rest := by
      simp [lrpEntries, List.enumFrom]
    rw [he, applyLRPEntries_cons _ (lrpEntries I a s (n + 1) rest)]
    simp [List.replicate_succ, Nat.add_comm, Nat.add_left_comm]

/-- The three results of `lrpsToAllocationRequest`, the world it leaves and the calls it
makes: one generator call per LRP and nothing else. -/
theorem lrpsToAllocationRequest_eq (I : Imports) (a : AuctionCellRep σ) (s : σ)
    (lrps : List LRP) (calls : List Call) :
    lrpsToAllocationRequest I a lrps { world := s, calls := calls }
      = (applyLRPEntries (lrpEntries I a s 0 lrps)
            { requests := [], lrpMap := [], untranslatedLRPs := [] },
          { world := genWorld a s lrps.length,
            calls := calls ++ List.replicate lrps.length Call.GenerateInstanceGuid }) := by
  have h := lrpsToAllocationRequestLoop_eq I a s lrps 0
    { requests := [], lrpMap := [], untranslatedLRPs := [] } calls
  simpa [lrpsToAllocationRequest, genWorld] using h

theorem tasksToAllocationRequestsLoop_eq (I : Imports) (a : AuctionCellRep σ)
    (tasks : List Task) :
    ∀ (n : Nat) (acc : TaskTranslation),
      tasksToAllocationRequestsLoop I a n tasks acc
        = { requests := acc.requests ++ tasks.filterMap (translateTask I a),
            taskMap := recordTasks n tasks acc.taskMap,
            failedTasks :=
              acc.failedTasks ++ tasks.filter (fun t => (translateTask I a t).isNone) } := by
  induction tasks with
  | nil =>
    intro n acc
    simp [tasksToAllocationRequestsLoop, recordTasks]
  | cons task rest ih =>
    intro n acc
    rw [tasksToAllocationRequestsLoop, ih (n + 1)]
    unfold tasksToAllocationRequestsStep translateTask recordTasks
    cases hp : (PathForRootFS task.RootFs a.stackPathMap).2 with
    | some e => simp [List.enumFrom, translateTask, hp]
    | none => simp [List.enumFrom, translateTask, hp]

/-- The three results of `tasksToAllocationRequests`. -/
theorem tasksToAllocationRequests_eq (I : Imports) (a : AuctionCellRep σ) (tasks : List Task) :
    tasksToAllocationRequests I a tasks
      = { requests := tasks.filterMap (translateTask I a),
          taskMap := recordTasks 0 tasks [],
          failedTasks := tasks.filter (fun t => (translateTask I a t).isNone) } := by
  have h := tasksToAllocationRequestsLoop_eq I a tasks 0
    { requests := [], taskMap := [], failedTasks := [] }
  simpa [tasksToAllocationRequests] using h

/-- The loop over the LRP failures appends, in order, the LRP of every failure whose
identifier is in the map. -/
theorem appendFailedLRPs_eq (lrpMap : GoMap LRPRef) (failures : List executor.AllocationFailure) :
    ∀ failed : List LRP,
      appendFailedLRPs lrpMap failures failed
        = failed ++ failures.filterMap
            (fun f => (GoMap.lookup lrpMap f.Guid).map (fun ref => ref.elem)) := by
  induction failures with
  | nil => intro failed; simp [appendFailedLRPs]
  | cons f rest ih =>
    intro failed
    rw [appendFailedLRPs]
    cases h : GoMap.lookup lrpMap f.Guid with
    | none => simp [ih, List.filterMap_cons, h]
    | some ref => simp [ih, List.filterMap_cons, h]

/-- The loop over the task failures appends, in order, the task of every failure whose
identifier is in the map. -/
theorem appendFailedTasks_eq (taskMap : GoMap TaskRef)
    (failures : List executor.AllocationFailure) :
    ∀ failed : List Task,
      appendFailedTasks taskMap failures failed
        = failed ++ failures.filterMap
            (fun f => (GoMap.lookup taskMap f.Guid).map (fun ref => ref.elem)) := by
  induction failures with
  | nil => intro failed; simp [appendFailedTasks]
  | cons f rest ih =>
    intro failed
    rw [appendFailedTasks]
    cases h : GoMap.lookup taskMap f.Guid with
    | none => simp [ih, List.filterMap_cons, h]
    | some ref => simp [ih, List.filterMap_cons, h]

end LoopLemmas

/-! ## The translators: requests, untranslated work and the identifier maps -/

section EntryLemmas

variable {σ : Type}

theorem translateLRP_eq (I : Imports) (a : AuctionCellRep σ) (s : σ) (i : Nat) (lrp : LRP) :
    translateLRP I a (genWorld a s i) lrp
      = if lrpFailsTranslation a s i lrp then none else some (lrpRequest I a s i lrp) := by
  unfold translateLRP lrpFailsTranslation lrpRequest
  cases hg : (a.generateInstanceGuid (genWorld a s i)).1.2 with
  | some e => simp
  | none =>
    cases hp : (PathForRootFS lrp.RootFs a.stackPathMap).2 with
    | some e => simp
    | none => simp

theorem lrpEntries_cons (I : Imports) (a : AuctionCellRep σ) (s : σ) (n : Nat) (lrp : LRP)
    (rest : List LRP) :
    lrpEntries I a s n (lrp :: rest)
      = ({ index := n, elem := lrp }, translateLRP I a (genWorld a s n) lrp)
          :: lrpEntries I a s (n + 1) rest := by
  simp [lrpEntries, List.enumFrom]

/-- The requests are those of the LRPs that translate, in input order. -/
theorem lrpEntries_requests (I : Imports) (a : AuctionCellRep σ) (s : σ) (lrps : List LRP) :
    ∀ n : Nat,
      (lrpEntries I a s n lrps).filterMap (fun e => e.2)
        = ((lrps.enumFrom n).filter (fun p => !lrpFailsTranslation a s p.1 p.2)).map
            (fun p => lrpRequest I a s p.1 p.2) := by
  induction lrps with
  | nil => intro n; simp [lrpEntries]
  | cons lrp rest ih =>
    intro n
    rw [lrpEntries_cons, List.enumFrom_cons, translateLRP_eq]
    by_cases hf : lrpFailsTranslation a s n lrp = true
    · simp [hf, ih (n + 1)]
    · simp [hf, ih (n + 1)]

/-- The untranslated LRPs are those that fail translation, in input order. -/
theorem lrpEntries_untranslated (I : Imports) (a : AuctionCellRep σ) (s : σ) (lrps : List LRP) :
    ∀ n : Nat,
      ((lrpEntries I a s n lrps).filter (fun e => e.2.isNone)).map (fun e => e.1.elem)
        = ((lrps.enumFrom n).filter (fun p => lrpFailsTranslation a s p.1 p.2)).map Prod.snd := by
  induction lrps with
  | nil => intro n; simp [lrpEntries]
  | cons lrp rest ih =>
    intro n
    rw [lrpEntries_cons, List.enumFrom_cons, translateLRP_eq]
    by_cases hf : lrpFailsTranslation a s n lrp = true
    · simp [hf, ih (n + 1)]
    · simp [hf, ih (n + 1)]

/-- Every pointer among the entries points into the batch, at its own index. -/
theorem lrpEntries_ref (I : Imports) (a : AuctionCellRep σ) (s : σ) (lrps : List LRP) :
    ∀ (n : Nat) (e : LRPRef × Option executor.AllocationRequest),
      e ∈ lrpEntries I a s n lrps →
        n ≤ e.1.index ∧ lrps[e.1.index - n]? = some e.1.elem := by
  induction lrps with
  | nil => intro n e he; simp [lrpEntries] at he
  | cons lrp rest ih =>
    intro n e he
    rw [lrpEntries_cons] at he
    rcases List.mem_cons.mp he with h | h
    · subst h
      simp
    · obtain ⟨h1, h2⟩ := ih (n + 1) e h
      refine ⟨by omega, ?_⟩
      have : e.1.index - n = (e.1.index - (n + 1)) + 1 := by omega
      rw [this]
      simpa using h2

theorem recordLRPs_cons (e : LRPRef × Option executor.AllocationRequest)
    (es : List (LRPRef × Option executor.AllocationRequest)) (m : GoMap LRPRef) :
    recordLRPs (e :: es) m = recordLRPs es (recordLRPs [e] m) := by
  simp [recordLRPs]

/-- Reading an identifier that no entry submits gives what the map held before. -/
theorem recordLRPs_lookup_other (es : List (LRPRef × Option executor.AllocationRequest))
    (g : String) :
    ∀ m : GoMap LRPRef, g ∉ (es.filterMap (fun e => e.2)).map (fun r => r.Guid) →
      GoMap.lookup (recordLRPs es m) g = GoMap.lookup m g := by
  induction es with
  | nil => intro m _; simp [recordLRPs]
  | cons e rest ih =>
    intro m hg
    obtain ⟨ref, o⟩ := e
    rw [recordLRPs_cons]
    cases o with
    | none =>
      have hg' : g ∉ (rest.filterMap (fun e => e.2)).map (fun r => r.Guid) := by
        simpa using hg
      rw [ih _ hg']
      simp [recordLRPs]
    | some req =>
      have hne : ¬ req.Guid = g := by
        intro h
        apply hg
        simp [h.symm]
      have hg' : g ∉ (rest.filterMap (fun e => e.2)).map (fun r => r.Guid) := by
        intro h
        apply hg
        simp only [List.filterMap_cons, List.map_cons, List.mem_cons]
        exact Or.inr h
      rw [ih _ hg']
      simp [recordLRPs, GoMap.lookup_set, hne]

/-- Whatever is read from the map after the writes was written for an entry or was there
before. -/
theorem recordLRPs_lookup_mem (es : List (LRPRef × Option executor.AllocationRequest))
    (g : String) (ref : LRPRef) :
    ∀ m : GoMap LRPRef, GoMap.lookup (recordLRPs es m) g = some ref →
      (∃ e ∈ es, e.1 = ref ∧ ∃ req, e.2 = some req ∧ req.Guid = g) ∨
        GoMap.lookup m g = some ref := by
  induction es with
  | nil => intro m h; right; simpa [recordLRPs] using h
  | cons e rest ih =>
    intro m h
    obtain ⟨ref0, o⟩ := e
    rw [recordLRPs_cons] at h
    rcases ih _ h with ⟨e', he', h1, h2⟩ | h'
    · left
      exact ⟨e', List.mem_cons_of_mem _ he', h1, h2⟩
    · cases o with
      | none => right; simpa [recordLRPs] using h'
      | some req =>
        simp only [recordLRPs, List.foldl_cons, List.foldl_nil, GoMap.lookup_set] at h'
        by_cases hk : req.Guid = g
        · rw [if_pos hk] at h'
          left
          refine ⟨(ref0, some req), List.mem_cons_self _ _, ?_, req, rfl, hk⟩
          simpa using h'
        · rw [if_neg hk] at h'
          right
          exact h'

end EntryLemmas

section BatchLemmas

variable {σ : Type}

/-- With pairwise distinct submitted identifiers, the identifier of an entry reads back the
pointer of that entry. -/
theorem recordLRPs_lookup_unique (es : List (LRPRef × Option executor.AllocationRequest))
    (ref : LRPRef) (req : executor.AllocationRequest) :
    ∀ m : GoMap LRPRef, ((es.filterMap (fun e => e.2)).map (fun r => r.Guid)).Nodup →
      (ref, some req) ∈ es → GoMap.lookup (recordLRPs es m) req.Guid = some ref := by
  induction es with
  | nil => intro m _ h; simp at h
  | cons e rest ih =>
    intro m hnd hmem
    rw [recordLRPs_cons]
    rcases List.mem_cons.mp hmem with h | h
    · subst h
      have hnot : req.Guid ∉ (rest.filterMap (fun e => e.2)).map (fun r => r.Guid) := by
        simp only [List.filterMap_cons, List.map_cons, List.nodup_cons] at hnd
        exact hnd.1
      rw [recordLRPs_lookup_other rest req.Guid _ hnot]
      simp [recordLRPs, GoMap.lookup_set]
    · obtain ⟨ref0, o⟩ := e
      have hnd' : ((rest.filterMap (fun e => e.2)).map (fun r => r.Guid)).Nodup := by
        cases o with
        | none => simpa using hnd
        | some r0 =>
          simp only [List.filterMap_cons, List.map_cons, List.nodup_cons] at hnd
          exact hnd.2
      exact ih _ hnd' h

theorem lrpBatch_eq (I : Imports) (a : AuctionCellRep σ) (s : σ) (lrps : List LRP) :
    lrpBatch I a s lrps
      = { requests := (lrpEntries I a s 0 lrps).filterMap (fun e => e.2),
          lrpMap := recordLRPs (lrpEntries I a s 0 lrps) [],
          untranslatedLRPs :=
            ((lrpEntries I a s 0 lrps).filter (fun e => e.2.isNone)).map (fun e => e.1.elem) } := by
  unfold lrpBatch
  rw [lrpsToAllocationRequest_eq]
  simp [applyLRPEntries]

/-- The requests of the LRP batch: one for each LRP that translates, in input order. -/
theorem lrpBatch_requests (I : Imports) (a : AuctionCellRep σ) (s : σ) (lrps : List LRP) :
    (lrpBatch I a s lrps).requests
      = (lrps.enum.filter (fun p => !lrpFailsTranslation a s p.1 p.2)).map
          (fun p => lrpRequest I a s p.1 p.2) := by
  rw [lrpBatch_eq]
  exact lrpEntries_requests I a s lrps 0

/-- The untranslated LRPs of the batch: those that fail translation, in input order. -/
theorem lrpBatch_untranslated (I : Imports) (a : AuctionCellRep σ) (s : σ) (lrps : List LRP) :
    (lrpBatch I a s lrps).untranslatedLRPs
      = (lrps.enum.filter (fun p => lrpFailsTranslation a s p.1 p.2)).map Prod.snd := by
  rw [lrpBatch_eq]
  exact lrpEntries_untranslated I a s lrps 0

/-- When no LRP of the batch is untranslated, request `i` is the request of LRP `i`. -/
theorem lrpBatch_requests_of_all_translated (I : Imports) (a : AuctionCellRep σ) (s : σ)
    (lrps : List LRP) (htr : (lrpBatch I a s lrps).untranslatedLRPs = []) :
    (∀ p ∈ lrps.enum, lrpFailsTranslation a s p.1 p.2 = false) ∧
    (lrpBatch I a s lrps).requests = lrps.enum.map (fun p => lrpRequest I a s p.1 p.2) := by
  rw [lrpBatch_untranslated] at htr
  have hall : ∀ p ∈ lrps.enum, lrpFailsTranslation a s p.1 p.2 = false := by
    intro p hp
    by_contra hc
    have hc' : lrpFailsTranslation a s p.1 p.2 = true := by simpa using hc
    have : p.2 ∈ (lrps.enum.filter (fun p => lrpFailsTranslation a s p.1 p.2)).map Prod.snd :=
      List.mem_map.mpr ⟨p, List.mem_filter.mpr ⟨hp, hc'⟩, rfl⟩
    rw [htr] at this
    simp at this
  refine ⟨hall, ?_⟩
  rw [lrpBatch_requests]
  congr 1
  apply List.filter_eq_self.mpr
  intro p hp
  simp [hall p hp]

theorem length_filterMap_of_isSome {α β : Type} (f : α → Option β) (l : List α)
    (h : ∀ x ∈ l, (f x).isSome = true) : (l.filterMap f).length = l.length := by
  induction l with
  | nil => simp
  | cons x xs ih =>
    have hx := h x (List.mem_cons_self _ _)
    obtain ⟨y, hy⟩ := Option.isSome_iff_exists.mp hx
    rw [List.filterMap_cons, hy]
    simp [ih (fun z hz => h z (List.mem_cons_of_mem _ hz))]

/-- With no untranslated LRP and pairwise distinct identifiers, a submitted identifier reads
back, from `lrpMap`, the pointer to the LRP at the position of the identifier. -/
theorem lrpBatch_lookup (I : Imports) (a : AuctionCellRep σ) (s : σ) (lrps : List LRP)
    (htr : (lrpBatch I a s lrps).untranslatedLRPs = [])
    (hnd : (lrpBatchGuids I a s lrps).Nodup) (g : String)
    (hg : g ∈ lrpBatchGuids I a s lrps) :
    ∃ l, lrps[(lrpBatchGuids I a s lrps).indexOf g]? = some l ∧
      GoMap.lookup (lrpBatch I a s lrps).lrpMap g
        = some { index := (lrpBatchGuids I a s lrps).indexOf g, elem := l } := by
  obtain ⟨hall, hreq⟩ := lrpBatch_requests_of_all_translated I a s lrps htr
  have hguids : lrpBatchGuids I a s lrps
      = lrps.enum.map (fun p => (lrpRequest I a s p.1 p.2).Guid) := by
    unfold lrpBatchGuids
    rw [hreq, List.map_map]
    rfl
  have hlt : (lrpBatchGuids I a s lrps).indexOf g < lrps.length := by
    have := List.indexOf_lt_length.mpr hg
    rw [hguids] at this
    simpa [hguids] using this
  have hget : (lrpBatchGuids I a s lrps)[(lrpBatchGuids I a s lrps).indexOf g]? = some g :=
    List.getElem?_indexOf hg
  generalize hi : (lrpBatchGuids I a s lrps).indexOf g = i at hlt hget ⊢
  refine ⟨lrps[i], List.getElem?_eq_getElem hlt, ?_⟩
  have hgi : (lrpRequest I a s i lrps[i]).Guid = g := by
    rw [hguids, List.getElem?_map, List.getElem?_enum, List.getElem?_eq_getElem hlt] at hget
    simpa using hget
  have hmem : (({ index := i, elem := lrps[i] } : LRPRef), some (lrpRequest I a s i lrps[i]))
      ∈ lrpEntries I a s 0 lrps := by
    have hp : (i, lrps[i]) ∈ lrps.enum :=
      List.mk_mem_enum_iff_getElem?.mpr (List.getElem?_eq_getElem hlt)
    unfold lrpEntries
    refine List.mem_map.mpr ⟨(i, lrps[i]), hp, ?_⟩
    have hf := hall _ hp
    simp only [translateLRP_eq]
    simp [hf]
  have hnd' : (((lrpEntries I a s 0 lrps).filterMap (fun e => e.2)).map
      (fun r => r.Guid)).Nodup := by
    have := hnd
    unfold lrpBatchGuids at this
    rw [lrpBatch_eq] at this
    exact this
  have := recordLRPs_lookup_unique (lrpEntries I a s 0 lrps) { index := i, elem := lrps[i] }
    (lrpRequest I a s i lrps[i]) [] hnd' hmem
  rw [hgi] at this
  rw [lrpBatch_eq]
  exact this

/-- Whatever is read from `taskMap` after the writes points to a task of the batch or was
there before. -/
theorem recordTasks_lookup_mem (tasks : List Task) (g : String) (ref : TaskRef) :
    ∀ (n : Nat) (m : GoMap TaskRef), GoMap.lookup (recordTasks n tasks m) g = some ref →
      (ref.elem ∈ tasks ∧ ref.elem.TaskGuid = g) ∨ GoMap.lookup m g = some ref := by
  induction tasks with
  | nil => intro n m h; right; simpa [recordTasks] using h
  | cons t rest ih =>
    intro n m h
    have hstep : recordTasks n (t :: rest) m
        = recordTasks (n + 1) rest (GoMap.set m t.TaskGuid { index := n, elem := t }) := by
      simp [recordTasks, List.enumFrom]
    rw [hstep] at h
    rcases ih _ _ h with ⟨h1, h2⟩ | h'
    · left
      exact ⟨List.mem_cons_of_mem _ h1, h2⟩
    · rw [GoMap.lookup_set] at h'
      by_cases hk : t.TaskGuid = g
      · rw [if_pos hk] at h'
        left
        have : ref = { index := n, elem := t } := by
          have := Option.some.inj h'
          exact this.symm
        subst this
        exact ⟨List.mem_cons_self _ _, hk⟩
      · rw [if_neg hk] at h'
        right
        exact h'

/-- Whatever is read from the `lrpMap` of the batch points to an LRP of the batch. -/
theorem lrpBatch_lookup_mem (I : Imports) (a : AuctionCellRep σ) (s : σ) (lrps : List LRP)
    (g : String) (ref : LRPRef)
    (h : GoMap.lookup (lrpBatch I a s lrps).lrpMap g = some ref) : ref.elem ∈ lrps := by
  rw [lrpBatch_eq] at h
  rcases recordLRPs_lookup_mem _ g ref [] h with ⟨e, he, h1, _⟩ | h'
  · have := (lrpEntries_ref I a s lrps 0 e he).2
    rw [← h1]
    exact List.getElem?_mem this
  · simp [GoMap.lookup] at h'

/-- Every untranslated LRP of the batch is an LRP of the batch. -/
theorem lrpBatch_untranslated_mem (I : Imports) (a : AuctionCellRep σ) (s : σ)
    (lrps : List LRP) (l : LRP) (h : l ∈ (lrpBatch I a s lrps).untranslatedLRPs) :
    l ∈ lrps := by
  rw [lrpBatch_untranslated] at h
  obtain ⟨p, hp, rfl⟩ := List.mem_map.mp h
  exact List.snd_mem_of_mem_enum (List.mem_filter.mp hp).1

end BatchLemmas

section PerformLemmas

variable {σ : Type}

/-- The LRPs that `Perform` returns on a non-evacuating cell. -/
theorem perform_lrps (I : Imports) (a : AuctionCellRep σ) (lrps : List LRP) (tasks : List Task)
    (s : σ) (hev : a.evacuationReporter s = false) :
    (Perform I a { LRPs := lrps, Tasks := tasks } s).work.LRPs
      = if lrps.length > 0 then
          match (lrpBatchReply I a s lrps).2 with
          | some _ => lrps
          | none =>
            (lrpBatch I a s lrps).untranslatedLRPs ++
              (lrpBatchReply I a s lrps).1.filterMap
                (fun f => (GoMap.lookup (lrpBatch I a s lrps).lrpMap f.Guid).map
                  (fun ref => ref.elem))
        else [] := by
  by_cases hlen : lrps.length > 0
  · simp only [Perform, hev, hlen, if_true, performLRPs, callAllocateContainers, lrpBatchReply,
      lrpBatch]
    cases hr : (a.client.AllocateContainers
        (lrpsToAllocationRequest I a lrps { world := s, calls := [] }).2.world
        (lrpsToAllocationRequest I a lrps { world := s, calls := [] }).1.requests).1.2 with
    | some e => simp
    | none =>
      simp only [appendFailedLRPs_eq]
      by_cases hu : (lrpsToAllocationRequest I a lrps
          { world := s, calls := [] }).1.untranslatedLRPs.length > 0
      · simp [hu]
      · have : (lrpsToAllocationRequest I a lrps
            { world := s, calls := [] }).1.untranslatedLRPs = [] := by
          apply List.eq_nil_of_length_eq_zero
          omega
        simp [this]
  · simp [Perform, hev, hlen]

/-- The tasks that `Perform` returns on a non-evacuating cell. -/
theorem perform_tasks (I : Imports) (a : AuctionCellRep σ) (lrps : List LRP) (tasks : List Task)
    (s : σ) (hev : a.evacuationReporter s = false) :
    (Perform I a { LRPs := lrps, Tasks := tasks } s).work.Tasks
      = if tasks.length > 0 then
          match (taskBatchReply I a s lrps tasks).2 with
          | some _ => tasks
          | none =>
            (tasksToAllocationRequests I a tasks).failedTasks ++
              (taskBatchReply I a s lrps tasks).1.filterMap
                (fun f => (GoMap.lookup (tasksToAllocationRequests I a tasks).taskMap f.Guid).map
                  (fun ref => ref.elem))
        else [] := by
  have hw : (if lrps.length > 0 then performLRPs I a lrps [] { world := s, calls := [] }
      else ([], { world := s, calls := [] })).2.world = worldAfterLRPs I a s lrps := by
    unfold worldAfterLRPs lrpBatch
    by_cases hlen : lrps.length > 0
    · simp only [hlen, if_true, performLRPs, callAllocateContainers]
      cases (a.client.AllocateContainers
        (lrpsToAllocationRequest I a lrps { world := s, calls := [] }).2.world
        (lrpsToAllocationRequest I a lrps { world := s, calls := [] }).1.requests).1.2 <;> rfl
    · simp [hlen]
  by_cases hlen : tasks.length > 0
  · simp only [Perform, hev, hlen, if_true, performTasks, callAllocateContainers, taskBatchReply]
    simp only [Bool.false_eq_true, if_false, hw]
    cases hr : (a.client.AllocateContainers (worldAfterLRPs I a s lrps)
        (tasksToAllocationRequests I a tasks).requests).1.2 with
    | some e => simp
    | none =>
      simp only [appendFailedTasks_eq]
      by_cases hu : (tasksToAllocationRequests I a tasks).failedTasks.length > 0
      · simp [hu]
      · have : (tasksToAllocationRequests I a tasks).failedTasks = [] := by
          apply List.eq_nil_of_length_eq_zero
          omega
        simp [this]
  · simp [Perform, hev, hlen]

/-- The calls that `Perform` makes on a non-evacuating cell: for a non-empty LRP list one
generator call per LRP and one allocation call with the translated LRP requests, then for a
non-empty task list one allocation call with the translated task requests. -/
theorem perform_calls (I : Imports) (a : AuctionCellRep σ) (lrps : List LRP) (tasks : List Task)
    (s : σ) (hev : a.evacuationReporter s = false) :
    (Perform I a { LRPs := lrps, Tasks := tasks } s).run.calls
      = (if lrps.length > 0 then
          List.replicate lrps.length Call.GenerateInstanceGuid ++
            [Call.AllocateContainers (lrpBatch I a s lrps).requests]
        else []) ++
        (if tasks.length > 0 then
          [Call.AllocateContainers (tasksToAllocationRequests I a tasks).requests]
        else []) := by
  have hc : (if lrps.length > 0 then performLRPs I a lrps [] { world := s, calls := [] }
      else ([], { world := s, calls := [] })).2.calls
      = if lrps.length > 0 then
          List.replicate lrps.length Call.GenerateInstanceGuid ++
            [Call.AllocateContainers (lrpBatch I a s lrps).requests]
        else [] := by
    unfold lrpBatch
    by_cases hlen : lrps.length > 0
    · simp only [hlen, if_true, performLRPs, callAllocateContainers]
      have hcalls : (lrpsToAllocationRequest I a lrps { world := s, calls := [] }).2.calls
          = List.replicate lrps.length Call.GenerateInstanceGuid := by
        rw [lrpsToAllocationRequest_eq]
        simp
      cases (a.client.AllocateContainers
        (lrpsToAllocationRequest I a lrps { world := s, calls := [] }).2.world
        (lrpsToAllocationRequest I a lrps { world := s, calls := [] }).1.requests).1.2 <;>
        simp [hcalls]
    · simp [hlen]
  by_cases hlen : tasks.length > 0
  · simp only [Perform, hev, hlen, if_true, performTasks, callAllocateContainers]
    simp only [Bool.false_eq_true, if_false]
    cases (a.client.AllocateContainers
        (if lrps.length > 0 then performLRPs I a lrps [] { world := s, calls := [] }
          else ([], { world := s, calls := [] })).2.world
        (tasksToAllocationRequests I a tasks).requests).1.2 <;> simp [hc]
  · simp [Perform, hev, hlen, hc]

/-- On an evacuating cell `Perform` returns its input and makes no call. -/
theorem perform_evacuating_aux (I : Imports) (a : AuctionCellRep σ) (w : Work) (s : σ)
    (hev : a.evacuationReporter s = true) :
    (Perform I a w s).work = w ∧ (Perform I a w s).run.calls = [] := by
  simp [Perform, hev]

end PerformLemmas

/-! ## `Perform`: theorems -/

section PerformTheorems

variable {σ : Type}

/-- C1: on an evacuating cell `Perform` returns its input work unchanged with a nil error,
calls neither `AllocateContainers` nor the instance-GUID generator, and leaves the world as
it found it. -/
theorem perform_evacuating (I : Imports) (a : AuctionCellRep σ) (w : Work) (s : σ)
    (hev : a.evacuationReporter s = true) :
    (Perform I a w s).work = w ∧ (Perform I a w s).err = none ∧
    (Perform I a w s).run.calls = [] ∧ (Perform I a w s).run.world = s := by
  simp [Perform, hev]

/-- Witness for C1: an evacuating sample cell given one LRP and one task. -/
theorem perform_evacuating_witness :
    (Perform Sample.imports (Sample.cell true Sample.guidDistinct Sample.refuseAll)
        { LRPs := [Sample.lrpA], Tasks := [Sample.taskA] } 0).work
      = { LRPs := [Sample.lrpA], Tasks := [Sample.taskA] } ∧
    (Perform Sample.imports (Sample.cell true Sample.guidDistinct Sample.refuseAll)
        { LRPs := [Sample.lrpA], Tasks := [Sample.taskA] } 0).err = none ∧
    (Perform Sample.imports (Sample.cell true Sample.guidDistinct Sample.refuseAll)
        { LRPs := [Sample.lrpA], Tasks := [Sample.taskA] } 0).run.calls = [] ∧
    (Perform Sample.imports (Sample.cell true Sample.guidDistinct Sample.refuseAll)
        { LRPs := [Sample.lrpA], Tasks := [Sample.taskA] } 0).run.world = 0 :=
  perform_evacuating Sample.imports (Sample.cell true Sample.guidDistinct Sample.refuseAll)
    { LRPs := [Sample.lrpA], Tasks := [Sample.taskA] } 0 rfl

/-- C2: on a non-evacuating cell given a non-empty LRP list, when the `AllocateContainers`
call made for the LRP batch returns an error, the LRPs of the result are the input LRP list
itself (each input LRP once, in input order), whatever was translated, and the error of
`Perform` is nil. -/
theorem perform_lrp_allocation_error (I : Imports) (a : AuctionCellRep σ) (lrps : List LRP)
    (tasks : List Task) (s : σ) (e : Error) (hne : lrps ≠ [])
    (hev : a.evacuationReporter s = false)
    (herr : (lrpBatchReply I a s lrps).2 = some e) :
    (Perform I a { LRPs := lrps, Tasks := tasks } s).work.LRPs = lrps ∧
    (Perform I a { LRPs := lrps, Tasks := tasks } s).err = none := by
  have hlen : lrps.length > 0 := List.length_pos.mpr hne
  unfold lrpBatchReply lrpBatch at herr
  simp [Perform, hev, hlen, performLRPs, callAllocateContainers, herr]

/-- Witness for C2: three LRPs, of which the second meets a failing generator and the third
an unknown stack, on a cell whose allocation call fails. -/
theorem perform_lrp_allocation_error_witness :
    (Perform Sample.imports (Sample.cell false Sample.guidFailingSecond Sample.callFails)
        { LRPs := [Sample.lrpA, Sample.lrpB, Sample.lrpC], Tasks := [] } 0).work.LRPs
      = [Sample.lrpA, Sample.lrpB, Sample.lrpC] ∧
    (Perform Sample.imports (Sample.cell false Sample.guidFailingSecond Sample.callFails)
        { LRPs := [Sample.lrpA, Sample.lrpB, Sample.lrpC], Tasks := [] } 0).err = none :=
  perform_lrp_allocation_error Sample.imports
    (Sample.cell false Sample.guidFailingSecond Sample.callFails)
    [Sample.lrpA, Sample.lrpB, Sample.lrpC] [] 0 (Error.other "connection refused")
    (by decide) rfl rfl

/-- C3: on a non-evacuating cell, when every LRP of the batch translates, the submitted
container identifiers are pairwise distinct, and the allocation call returns no error and a
failure list whose identifiers are pairwise distinct and all submitted, then request `i` is
the request built for LRP `i`, and the LRPs of the result are exactly the input LRPs at the
positions of the failed identifiers: one per failure, at pairwise distinct positions, and a
position is among them only when its identifier is in the failure list. -/
theorem perform_reports_failed_lrps (I : Imports) (a : AuctionCellRep σ) (lrps : List LRP)
    (tasks : List Task) (s : σ) (failures : List executor.AllocationFailure)
    (hev : a.evacuationReporter s = false)
    (htr : (lrpBatch I a s lrps).untranslatedLRPs = [])
    (hnd : (lrpBatchGuids I a s lrps).Nodup)
    (hreply : lrpBatchReply I a s lrps = (failures, none))
    (hfd : (failures.map (fun f => f.Guid)).Nodup)
    (hfs : ∀ f ∈ failures, f.Guid ∈ lrpBatchGuids I a s lrps) :
    (lrpBatch I a s lrps).requests = lrps.enum.map (fun p => lrpRequest I a s p.1 p.2) ∧
    (Perform I a { LRPs := lrps, Tasks := tasks } s).work.LRPs
      = failures.filterMap (fun f => lrps[(lrpBatchGuids I a s lrps).indexOf f.Guid]?) ∧
    (Perform I a { LRPs := lrps, Tasks := tasks } s).work.LRPs.length = failures.length ∧
    (failures.map (fun f => (lrpBatchGuids I a s lrps).indexOf f.Guid)).Nodup ∧
    ∀ (i : Nat) (g : String), (lrpBatchGuids I a s lrps)[i]? = some g →
      (i ∈ failures.map (fun f => (lrpBatchGuids I a s lrps).indexOf f.Guid)
        ↔ g ∈ failures.map (fun f => f.Guid)) := by
  have hreq := (lrpBatch_requests_of_all_translated I a s lrps htr).2
  have hsome : ∀ f ∈ failures,
      (lrps[(lrpBatchGuids I a s lrps).indexOf f.Guid]?).isSome = true := by
    intro f hf
    obtain ⟨l, hl, _⟩ := lrpBatch_lookup I a s lrps htr hnd f.Guid (hfs f hf)
    simp [hl]
  have hres : (Perform I a { LRPs := lrps, Tasks := tasks } s).work.LRPs
      = failures.filterMap (fun f => lrps[(lrpBatchGuids I a s lrps).indexOf f.Guid]?) := by
    rw [perform_lrps I a lrps tasks s hev]
    by_cases hlen : lrps.length > 0
    · rw [if_pos hlen, hreply]
      simp only [htr, List.nil_append]
      apply List.filterMap_congr
      intro f hf
      obtain ⟨l, hl, hlook⟩ := lrpBatch_lookup I a s lrps htr hnd f.Guid (hfs f hf)
      rw [hlook, hl]
      rfl
    · rw [if_neg hlen]
      have hnil : lrps = [] := List.eq_nil_of_length_eq_zero (by omega)
      have hg : lrpBatchGuids I a s lrps = [] := by
        unfold lrpBatchGuids
        rw [hreq, hnil]
        rfl
      have hf : failures = [] := by
        apply List.eq_nil_iff_forall_not_mem.mpr
        intro f hf
        have := hfs f hf
        rw [hg] at this
        simp at this
      simp [hf]
  refine ⟨hreq, hres, ?_, ?_, ?_⟩
  · rw [hres]
    exact length_filterMap_of_isSome _ _ hsome
  · have : failures.map (fun f => (lrpBatchGuids I a s lrps).indexOf f.Guid)
        = (failures.map (fun f => f.Guid)).map
            (fun g => (lrpBatchGuids I a s lrps).indexOf g) := by
      rw [List.map_map]
      rfl
    rw [this]
    apply List.Nodup.map_on _ hfd
    intro x hx y hy hxy
    obtain ⟨fx, hfx, rfl⟩ := List.mem_map.mp hx
    obtain ⟨fy, hfy, rfl⟩ := List.mem_map.mp hy
    exact (List.indexOf_inj (hfs fx hfx) (hfs fy hfy)).mp hxy
  · intro i g hig
    constructor
    · intro hi
      obtain ⟨f, hf, hfi⟩ := List.mem_map.mp hi
      have hget := List.getElem?_indexOf (hfs f hf)
      rw [hfi, hig] at hget
      have : g = f.Guid := by simpa using hget
      rw [this]
      exact List.mem_map.mpr ⟨f, hf, rfl⟩
    · intro hg
      obtain ⟨f, hf, hfg⟩ := List.mem_map.mp hg
      refine List.mem_map.mpr ⟨f, hf, ?_⟩
      have hlt : i < (lrpBatchGuids I a s lrps).length := by
        by_contra hc
        have := List.getElem?_eq_none (Nat.le_of_not_lt hc)
        rw [this] at hig
        cases hig
      have hgi : (lrpBatchGuids I a s lrps)[i] = g := by
        rw [List.getElem?_eq_getElem hlt] at hig
        simpa using hig
      rw [hfg, ← hgi]
      exact List.indexOf_getElem hnd i hlt

/-- Witness for C3: two LRPs that translate into `pg-a-ig-0` and `pg-b-ig-1`, of which the
runtime refuses the first; the result holds the first LRP and nothing else. -/
theorem perform_reports_failed_lrps_witness :
    lrpBatchGuids Sample.imports (Sample.cell false Sample.guidDistinct Sample.refuseFirst) 0
        [Sample.lrpA, Sample.lrpB] = ["pg-a-ig-0", "pg-b-ig-1"] ∧
    ((lrpBatchReply Sample.imports (Sample.cell false Sample.guidDistinct Sample.refuseFirst) 0
        [Sample.lrpA, Sample.lrpB]).1.map (fun f => f.Guid), (lrpBatchReply Sample.imports
        (Sample.cell false Sample.guidDistinct Sample.refuseFirst) 0
        [Sample.lrpA, Sample.lrpB]).2) = (["pg-a-ig-0"], none) ∧
    (Perform Sample.imports (Sample.cell false Sample.guidDistinct Sample.refuseFirst)
        { LRPs := [Sample.lrpA, Sample.lrpB], Tasks := [] } 0).work.LRPs = [Sample.lrpA] :=
  have h := perform_reports_failed_lrps Sample.imports
    (Sample.cell false Sample.guidDistinct Sample.refuseFirst) [Sample.lrpA, Sample.lrpB] [] 0
    (Sample.refuseFirst (lrpBatch Sample.imports
      (Sample.cell false Sample.guidDistinct Sample.refuseFirst) 0
      [Sample.lrpA, Sample.lrpB]).requests).1
    rfl (by decide) (by decide) rfl (by decide) (by decide)
  ⟨by decide, by decide, h.2.1.trans (by decide)⟩

/-- C4: whatever the runtime client and the generator do, every LRP of the result of
`Perform` is an input LRP, every task of the result is an input task and the error is nil;
a failure whose identifier is not a key of the identifier map adds nothing: both failure loops
give the same list with that failure left out. -/
theorem perform_result_subset (I : Imports) (a : AuctionCellRep σ) (work : Work) (s : σ) :
    (∀ l ∈ (Perform I a work s).work.LRPs, l ∈ work.LRPs) ∧
    (∀ t ∈ (Perform I a work s).work.Tasks, t ∈ work.Tasks) ∧
    (Perform I a work s).err = none ∧
    (∀ (lrpMap : GoMap LRPRef) (before after : List executor.AllocationFailure)
        (f : executor.AllocationFailure) (failed : List LRP),
      GoMap.lookup lrpMap f.Guid = none →
        appendFailedLRPs lrpMap (before ++ f :: after) failed
          = appendFailedLRPs lrpMap (before ++ after) failed) ∧
    (∀ (taskMap : GoMap TaskRef) (before after : List executor.AllocationFailure)
        (f : executor.AllocationFailure) (failed : List Task),
      GoMap.lookup taskMap f.Guid = none →
        appendFailedTasks taskMap (before ++ f :: after) failed
          = appendFailedTasks taskMap (before ++ after) failed) := by
  refine ⟨?_, ?_, ?_, ?_, ?_⟩
  · intro l hl
    cases hev : a.evacuationReporter s with
    | true =>
      rw [(perform_evacuating_aux I a work s hev).1] at hl
      exact hl
    | false =>
      obtain ⟨lrps, tasks⟩ := work
      rw [perform_lrps I a lrps tasks s hev] at hl
      by_cases hlen : lrps.length > 0
      · rw [if_pos hlen] at hl
        cases hr : (lrpBatchReply I a s lrps).2 with
        | some e =>
          rw [hr] at hl
          exact hl
        | none =>
          rw [hr] at hl
          rcases List.mem_append.mp hl with h | h
          · exact lrpBatch_untranslated_mem I a s lrps l h
          · obtain ⟨f, _, hf⟩ := List.mem_filterMap.mp h
            cases hlook : GoMap.lookup (lrpBatch I a s lrps).lrpMap f.Guid with
            | none => rw [hlook] at hf; cases hf
            | some ref =>
              rw [hlook] at hf
              have : ref.elem = l := by simpa using hf
              rw [← this]
              exact lrpBatch_lookup_mem I a s lrps f.Guid ref hlook
      · rw [if_neg hlen] at hl
        cases hl
  · intro t ht
    cases hev : a.evacuationReporter s with
    | true =>
      rw [(perform_evacuating_aux I a work s hev).1] at ht
      exact ht
    | false =>
      obtain ⟨lrps, tasks⟩ := work
      rw [perform_tasks I a lrps tasks s hev] at ht
      by_cases hlen : tasks.length > 0
      · rw [if_pos hlen] at ht
        cases hr : (taskBatchReply I a s lrps tasks).2 with
        | some e =>
          rw [hr] at ht
          exact ht
        | none =>
          rw [hr] at ht
          rw [tasksToAllocationRequests_eq] at ht
          rcases List.mem_append.mp ht with h | h
          · exact (List.mem_filter.mp h).1
          · obtain ⟨f, _, hf⟩ := List.mem_filterMap.mp h
            cases hlook : GoMap.lookup (recordTasks 0 tasks []) f.Guid with
            | none =>
              simp only [hlook] at hf
              cases hf
            | some ref =>
              simp only [hlook] at hf
              have : ref.elem = t := by simpa using hf
              rw [← this]
              rcases recordTasks_lookup_mem tasks f.Guid ref 0 [] hlook with h1 | h1
              · exact h1.1
              · simp [GoMap.lookup] at h1
      · rw [if_neg hlen] at ht
        cases ht
  · unfold Perform
    split <;> rfl
  · intro lrpMap before after f failed hf
    simp [appendFailedLRPs_eq, List.filterMap_append, List.filterMap_cons, hf]
  · intro taskMap before after f failed hf
    simp [appendFailedTasks_eq, List.filterMap_append, List.filterMap_cons, hf]

/-- What `tasksToAllocationRequests` returns for one task whose root filesystem fails to
resolve: no request, the task as failed, and the task in `taskMap` all the same. -/
theorem tasksToAllocationRequests_unresolvable (I : Imports) (a : AuctionCellRep σ) (t : Task)
    (e : Error) (hfail : (PathForRootFS t.RootFs a.stackPathMap).2 = some e) :
    tasksToAllocationRequests I a [t]
      = { requests := [], taskMap := GoMap.set [] t.TaskGuid { index := 0, elem := t },
          failedTasks := [t] } := by
  have htr : translateTask I a t = none := by
    unfold translateTask
    rw [hfail]
  rw [tasksToAllocationRequests_eq]
  simp [htr, recordTasks, List.enumFrom]

/-- On a non-evacuating cell given no LRP and one task whose root filesystem fails to
resolve, whatever the runtime answers: the only call is one `AllocateContainers` call with an
empty batch, so no request carrying the identifier of the task reaches the runtime; the task
is in the result, which holds no LRP; the error is nil. -/
theorem unresolvable_task_not_submitted (I : Imports) (a : AuctionCellRep σ) (t : Task) (s : σ)
    (e : Error) (hev : a.evacuationReporter s = false)
    (hfail : (PathForRootFS t.RootFs a.stackPathMap).2 = some e) :
    (Perform I a { LRPs := [], Tasks := [t] } s).run.calls = [Call.AllocateContainers []] ∧
    t ∈ (Perform I a { LRPs := [], Tasks := [t] } s).work.Tasks ∧
    (Perform I a { LRPs := [], Tasks := [t] } s).work.LRPs = [] ∧
    (Perform I a { LRPs := [], Tasks := [t] } s).err = none := by
  have hbatch := tasksToAllocationRequests_unresolvable I a t e hfail
  refine ⟨?_, ?_, ?_, ?_⟩
  · rw [perform_calls I a [] [t] s hev, hbatch]
    simp
  · rw [perform_tasks I a [] [t] s hev, hbatch]
    simp only [List.length_singleton, Nat.lt_add_one, if_true]
    cases (taskBatchReply I a s [] [t]).2 <;> simp
  · rw [perform_lrps I a [] [t] s hev]
    simp
  · unfold Perform
    split <;> rfl

/-- In the same situation, when the answer to the allocation call is an error, or reports no
failure under the identifier of the task, the result holds exactly that task. -/
theorem unresolvable_task_reported_once (I : Imports) (a : AuctionCellRep σ) (t : Task) (s : σ)
    (e : Error) (hev : a.evacuationReporter s = false)
    (hfail : (PathForRootFS t.RootFs a.stackPathMap).2 = some e)
    (hreply : (a.client.AllocateContainers s []).1.2 = none →
      ∀ f ∈ (a.client.AllocateContainers s []).1.1, f.Guid ≠ t.TaskGuid) :
    (Perform I a { LRPs := [], Tasks := [t] } s).work.Tasks = [t] := by
  have hbatch := tasksToAllocationRequests_unresolvable I a t e hfail
  have hrep : taskBatchReply I a s [] [t] = (a.client.AllocateContainers s []).1 := by
    simp [taskBatchReply, worldAfterLRPs, hbatch]
  rw [perform_tasks I a [] [t] s hev, hrep, hbatch]
  simp only [List.length_singleton, Nat.lt_add_one, if_true]
  cases hr : (a.client.AllocateContainers s []).1.2 with
  | some e' => rfl
  | none =>
    have hnone : (a.client.AllocateContainers s []).1.1.filterMap
        (fun f => (GoMap.lookup (GoMap.set ([] : GoMap TaskRef) t.TaskGuid
          { index := 0, elem := t }) f.Guid).map (fun ref => ref.elem)) = [] := by
      apply List.filterMap_eq_nil_iff.mpr
      intro f hf
      have hne : ¬ t.TaskGuid = f.Guid := fun h => hreply hr f hf h.symm
      simp [GoMap.lookup_set, hne, GoMap.lookup]
    simp [hnone]

/-- C5: the code breaks the claim at this input.  The cell is not evacuating and knows the
stack `stack-a` only; the work is no LRP and the one task `tg-z`, on the stack `stack-z`; the
runtime answers the allocation call with a failure under the identifier `tg-z`.  The only
call is one `AllocateContainers` call with an empty batch, the error is nil and no LRP is
returned, but the task is returned twice: `tasksToAllocationRequests` writes it into
`taskMap` before it resolves the root filesystem, so the failure is matched to it.
`lrpsToAllocationRequest` writes `lrpMap` after the resolution: for the LRP `lrpC`, on the
same stack, and a runtime that answers with a failure under its container identifier,
`Perform` returns the LRP once. -/
theorem perform_unresolvable_task_reported_twice :
    (Sample.cell false Sample.guidDistinct Sample.blameTaskZ).evacuationReporter 0 = false ∧
    (PathForRootFS Sample.taskZ.RootFs
        (Sample.cell false Sample.guidDistinct Sample.blameTaskZ).stackPathMap).2
      = some ErrPreloadedRootFSNotFound ∧
    (Perform Sample.imports (Sample.cell false Sample.guidDistinct Sample.blameTaskZ)
        { LRPs := [], Tasks := [Sample.taskZ] } 0).run.calls = [Call.AllocateContainers []] ∧
    (Perform Sample.imports (Sample.cell false Sample.guidDistinct Sample.blameTaskZ)
        { LRPs := [], Tasks := [Sample.taskZ] } 0).err = none ∧
    (Perform Sample.imports (Sample.cell false Sample.guidDistinct Sample.blameTaskZ)
        { LRPs := [], Tasks := [Sample.taskZ] } 0).work.LRPs = [] ∧
    (Perform Sample.imports (Sample.cell false Sample.guidDistinct Sample.blameTaskZ)
        { LRPs := [], Tasks := [Sample.taskZ] } 0).work.Tasks = [Sample.taskZ, Sample.taskZ] ∧
    (Perform Sample.imports (Sample.cell false Sample.guidDistinct Sample.blameTaskZ)
        { LRPs := [], Tasks := [Sample.taskZ] } 0).work.Tasks ≠ [Sample.taskZ] ∧
    (PathForRootFS Sample.lrpC.RootFs
        (Sample.cell false Sample.guidDistinct Sample.blameLRPC).stackPathMap).2
      = some ErrPreloadedRootFSNotFound ∧
    Sample.imports.LRPContainerGuid Sample.lrpC.ProcessGuid (Sample.guidDistinct 0).1
      = "pg-c-ig-0" ∧
    (Perform Sample.imports (Sample.cell false Sample.guidDistinct Sample.blameLRPC)
        { LRPs := [Sample.lrpC], Tasks := [] } 0).run.calls
      = [Call.GenerateInstanceGuid, Call.AllocateContainers []] ∧
    (Perform Sample.imports (Sample.cell false Sample.guidDistinct Sample.blameLRPC)
        { LRPs := [Sample.lrpC], Tasks := [] } 0).work.LRPs = [Sample.lrpC] := by
  decide

/-- C6: `lrpsToAllocationRequest` treats each LRP on its own.  The untranslated list holds,
in input order, exactly the LRPs for which the generator fails (on the call made for them) or
the resolver fails; the requests are, in input order, one request for each other LRP; the two
lengths add up to the number of LRPs; and when the cell is not evacuating and the allocation
call returns no error, every untranslated LRP is in the result of `Perform`. -/
theorem lrps_translated_one_by_one (I : Imports) (a : AuctionCellRep σ) (lrps : List LRP)
    (tasks : List Task) (s : σ) :
    (lrpBatch I a s lrps).untranslatedLRPs
      = (lrps.enum.filter (fun p => lrpFailsTranslation a s p.1 p.2)).map Prod.snd ∧
    (lrpBatch I a s lrps).requests
      = (lrps.enum.filter (fun p => !lrpFailsTranslation a s p.1 p.2)).map
          (fun p => lrpRequest I a s p.1 p.2) ∧
    (lrpBatch I a s lrps).requests.length + (lrpBatch I a s lrps).untranslatedLRPs.length
      = lrps.length ∧
    (a.evacuationReporter s = false → (lrpBatchReply I a s lrps).2 = none →
      ∀ l ∈ (lrpBatch I a s lrps).untranslatedLRPs,
        l ∈ (Perform I a { LRPs := lrps, Tasks := tasks } s).work.LRPs) := by
  refine ⟨lrpBatch_untranslated I a s lrps, lrpBatch_requests I a s lrps, ?_, ?_⟩
  · rw [lrpBatch_untranslated, lrpBatch_requests, List.length_map, List.length_map]
    have h := List.length_eq_length_filter_add (l := lrps.enum)
      (fun p => lrpFailsTranslation a s p.1 p.2)
    rw [List.enum_length] at h
    omega
  · intro hev hok l hl
    rw [perform_lrps I a lrps tasks s hev]
    have hlen : lrps.length > 0 := by
      apply List.length_pos.mpr
      intro hnil
      have := lrpBatch_untranslated_mem I a s lrps l hl
      rw [hnil] at this
      cases this
    rw [if_pos hlen, hok]
    exact List.mem_append_left _ hl

/-- Witness for C6: of three LRPs the second meets a failing generator and the third an
unknown stack; the first is submitted and refused, and all three come back. -/
theorem lrps_translated_one_by_one_witness :
    (lrpBatch Sample.imports (Sample.cell false Sample.guidFailingSecond Sample.refuseAll) 0
        [Sample.lrpA, Sample.lrpB, Sample.lrpC]).untranslatedLRPs = [Sample.lrpB, Sample.lrpC] ∧
    (lrpBatch Sample.imports (Sample.cell false Sample.guidFailingSecond Sample.refuseAll) 0
        [Sample.lrpA, Sample.lrpB, Sample.lrpC]).requests.map (fun r => r.Guid)
      = ["pg-a-ig-0"] ∧
    ∀ l ∈ [Sample.lrpB, Sample.lrpC],
      l ∈ (Perform Sample.imports (Sample.cell false Sample.guidFailingSecond Sample.refuseAll)
        { LRPs := [Sample.lrpA, Sample.lrpB, Sample.lrpC], Tasks := [] } 0).work.LRPs :=
  have h := lrps_translated_one_by_one Sample.imports
    (Sample.cell false Sample.guidFailingSecond Sample.refuseAll)
    [Sample.lrpA, Sample.lrpB, Sample.lrpC] [] 0
  ⟨h.1.trans (by decide), (congrArg (List.map (fun r => r.Guid)) h.2.1).trans (by decide),
    h.2.2.2 rfl rfl⟩

end PerformTheorems

/-! ## `State`: theorems -/

section StateTheorems

variable {σ : Type}

/-- C10: the error of `State` is the error of the first of the four runtime queries
(`ListContainers`, `TotalResources`, `RemainingResources`, `VolumeDrivers`) that fails, so
`State` returns an error exactly when one of them fails; with an error it returns the zero
`CellState` and `healthy = false`; when the four queries succeed the error is nil, whatever
the containers, their tags and the tag decoders are. -/
theorem state_error_iff_query_fails (I : Imports) (a : AuctionCellRep σ) (s : σ) :
    (State I a s).err
      = ((containersReply a s).1.2 <|> (totalResourcesReply a s).1.2 <|>
          (remainingResourcesReply a s).1.2 <|> (volumeDriversReply a s).1.2) ∧
    ((State I a s).err ≠ none ↔
      ((containersReply a s).1.2 ≠ none ∨ (totalResourcesReply a s).1.2 ≠ none ∨
        (remainingResourcesReply a s).1.2 ≠ none ∨ (volumeDriversReply a s).1.2 ≠ none)) ∧
    ((State I a s).err ≠ none →
      (State I a s).state = CellState.zero ∧ (State I a s).healthy = false) := by
  unfold State containersReply totalResourcesReply remainingResourcesReply volumeDriversReply
    containersReply totalResourcesReply remainingResourcesReply containersReply
    totalResourcesReply containersReply
  cases h1 : (a.client.ListContainers s).1.2 with
  | some e1 => simp [h1]
  | none =>
    cases h2 : (a.client.TotalResources (a.client.ListContainers s).2).1.2 with
    | some e2 => simp [h1, h2]
    | none =>
      cases h3 : (a.client.RemainingResources
          (a.client.TotalResources (a.client.ListContainers s).2).2).1.2 with
      | some e3 => simp [h1, h2, h3]
      | none =>
        cases h4 : (a.client.VolumeDrivers (a.client.RemainingResources
            (a.client.TotalResources (a.client.ListContainers s).2).2).2).1.2 with
        | some e4 => simp [h1, h2, h3, h4]
        | none => simp [h1, h2, h3, h4]

end StateTheorems

section StateLemmas

variable {σ : Type}

theorem stateStep_eq (I : Imports) (cellID : String) (c : executor.Container) (acc : StateAcc) :
    stateStep I cellID c acc
      = { lrps := acc.lrps ++ (lrpRecord I cellID c).toList,
          tasks := acc.tasks ++ (taskRecord I c).toList,
          startingContainerCount :=
            acc.startingContainerCount + (if containerIsStarting c then 1 else 0) } := by
  unfold stateStep lrpRecord taskRecord containerResource containerConstraint
  cases ht : c.Tags with
  | none => by_cases hs : containerIsStarting c = true <;> simp [hs]
  | some tags =>
    by_cases hl : GoMap.getD tags I.LifecycleTag = I.LRPLifecycle
    · cases hk : (I.ActualLRPKeyFromTags tags).2 with
      | some e => by_cases hs : containerIsStarting c = true <;> simp [hs, hl, hk]
      | none =>
        cases hi : (I.ActualLRPInstanceKeyFromContainer c cellID).2 with
        | some e => by_cases hs : containerIsStarting c = true <;> simp [hs, hl, hk, hi]
        | none => by_cases hs : containerIsStarting c = true <;> simp [hs, hl, hk, hi]
    · by_cases hk : GoMap.getD tags I.LifecycleTag = I.TaskLifecycle
      · have hne : ¬ I.TaskLifecycle = I.LRPLifecycle := fun h => hl (hk.trans h)
        by_cases hs : containerIsStarting c = true <;> simp [hs, hk, hne]
      · by_cases hs : containerIsStarting c = true <;> simp [hs, hl, hk]

/-- The container loop of `State`: every container adds its own records, in order, and
counts when it is starting. -/
theorem stateLoop_eq (I : Imports) (cellID : String) (cs : List executor.Container) :
    ∀ acc : StateAcc,
      stateLoop I cellID cs acc
        = { lrps := acc.lrps ++ cs.filterMap (lrpRecord I cellID),
            tasks := acc.tasks ++ cs.filterMap (taskRecord I),
            startingContainerCount :=
              acc.startingContainerCount + (cs.filter containerIsStarting).length } := by
  induction cs with
  | nil => intro acc; simp [stateLoop]
  | cons c rest ih =>
    intro acc
    rw [stateLoop, ih, stateStep_eq]
    cases hl : lrpRecord I cellID c <;> cases ht : taskRecord I c <;>
      by_cases hs : containerIsStarting c = true <;>
      simp [hl, ht, hs, List.filter_cons] <;> omega

/-- What `State` returns when its four queries succeed. -/
theorem state_of_queries_ok (I : Imports) (a : AuctionCellRep σ) (s : σ)
    (h1 : (containersReply a s).1.2 = none) (h2 : (totalResourcesReply a s).1.2 = none)
    (h3 : (remainingResourcesReply a s).1.2 = none) (h4 : (volumeDriversReply a s).1.2 = none) :
    State I a s
      = { state := NewCellState a.rootFSProviders
            (convertResources (remainingResourcesReply a s).1.1)
            (convertResources (totalResourcesReply a s).1.1)
            ((containersReply a s).1.1.filterMap (lrpRecord I a.cellID))
            ((containersReply a s).1.1.filterMap (taskRecord I)) a.zone
            (((containersReply a s).1.1.filter containerIsStarting).length)
            (a.evacuationReporter (volumeDriversReply a s).2) (volumeDriversReply a s).1.1
            a.placementTags a.optionalPlacementTags,
          healthy := (a.client.Healthy (volumeDriversReply a s).2).1,
          err := none,
          world := (a.client.Healthy (volumeDriversReply a s).2).2 } := by
  unfold containersReply totalResourcesReply remainingResourcesReply volumeDriversReply
    containersReply totalResourcesReply remainingResourcesReply containersReply
    totalResourcesReply containersReply at *
  unfold State
  simp only [h1, h2, h3, h4, stateLoop_eq]
  simp

end StateLemmas

section StateTheorems2

variable {σ : Type}

/-- C11: when the four runtime queries succeed, `StartingContainerCount` is the number of
containers of the list whose state is reserved, initializing or created; every container of
the list is looked at, with or without tag map and whether or not it is reported. -/
theorem state_starting_container_count (I : Imports) (a : AuctionCellRep σ) (s : σ)
    (h1 : (containersReply a s).1.2 = none) (h2 : (totalResourcesReply a s).1.2 = none)
    (h3 : (remainingResourcesReply a s).1.2 = none) (h4 : (volumeDriversReply a s).1.2 = none) :
    (State I a s).state.StartingContainerCount
      = ((containersReply a s).1.1.filter (fun c =>
          decide (c.State = executor.StateReserved ∨ c.State = executor.StateInitializing ∨
            c.State = executor.StateCreated))).length := by
  rw [state_of_queries_ok I a s h1 h2 h3 h4]
  simp only [NewCellState]
  congr 1
  apply List.filter_congr
  intro c _
  simp [containerIsStarting, Bool.or_assoc]

/-- Witness for C11: a created LRP container, a running task container, a reserved container
without tags and an initializing container with an unknown lifecycle: three are starting. -/
theorem state_starting_container_count_witness :
    (State Sample.importsDecoding (Sample.stateCell
        [Sample.containerP1, Sample.containerTask, Sample.containerNoTags,
          Sample.containerOther] true) 0).state.StartingContainerCount = 3 :=
  (state_starting_container_count Sample.importsDecoding (Sample.stateCell
    [Sample.containerP1, Sample.containerTask, Sample.containerNoTags, Sample.containerOther]
    true) 0 rfl rfl rfl rfl).trans (by decide)

/-- A container that is missing required tags yields no record. -/
theorem records_of_missingRequiredTags (I : Imports) (cellID : String)
    (c : executor.Container) (hL : I.LRPLifecycle ≠ "") (hT : I.TaskLifecycle ≠ "")
    (hm : missingRequiredTags I cellID c = true) :
    lrpRecord I cellID c = none ∧ taskRecord I c = none := by
  unfold missingRequiredTags at hm
  unfold lrpRecord taskRecord
  cases ht : c.Tags with
  | none => simp
  | some tags =>
    rw [ht] at hm
    simp only [Bool.or_eq_true, Bool.and_eq_true, decide_eq_true_eq, Option.isNone_iff_eq_none,
      Option.isSome_iff_ne_none] at hm
    rcases hm with (hm | hm) | hm
    · have hget : GoMap.getD tags I.LifecycleTag = "" := by simp [GoMap.getD, hm]
      have h1 : ¬ GoMap.getD tags I.LifecycleTag = I.LRPLifecycle := by
        rw [hget]; exact fun h => hL h.symm
      have h2 : ¬ GoMap.getD tags I.LifecycleTag = I.TaskLifecycle := by
        rw [hget]; exact fun h => hT h.symm
      simp [h1, h2]
    · simp [hm.1, hm.2]
    · obtain ⟨hl, hk⟩ := hm
      simp only [hl, if_true]
      refine ⟨?_, True.intro⟩
      cases hk1 : (I.ActualLRPKeyFromTags tags).2 with
      | some e => rfl
      | none =>
        cases hk2 : (I.ActualLRPInstanceKeyFromContainer c cellID).2 with
        | some e => rfl
        | none => simp [hk1, hk2] at hk

/-- C12: with non-empty lifecycle markers, a container that is missing required tags leaves
`lrps` and `tasks` as they are in its iteration of the loop; when the four runtime queries
succeed `State` returns no error, and its `LRPs` and `Tasks` are those that the loop builds
from the list with such containers taken out, so the other containers are reported as if
those were not there. -/
theorem state_skips_containers_missing_tags (I : Imports) (a : AuctionCellRep σ) (s : σ)
    (hL : I.LRPLifecycle ≠ "") (hT : I.TaskLifecycle ≠ "")
    (h1 : (containersReply a s).1.2 = none) (h2 : (totalResourcesReply a s).1.2 = none)
    (h3 : (remainingResourcesReply a s).1.2 = none) (h4 : (volumeDriversReply a s).1.2 = none) :
    (∀ (c : executor.Container) (acc : StateAcc), missingRequiredTags I a.cellID c = true →
      (stateStep I a.cellID c acc).lrps = acc.lrps ∧
      (stateStep I a.cellID c acc).tasks = acc.tasks) ∧
    (State I a s).err = none ∧
    (State I a s).state.LRPs
      = (stateLoop I a.cellID
          ((containersReply a s).1.1.filter (fun c => !missingRequiredTags I a.cellID c))
          { lrps := [], tasks := [], startingContainerCount := 0 }).lrps ∧
    (State I a s).state.Tasks
      = (stateLoop I a.cellID
          ((containersReply a s).1.1.filter (fun c => !missingRequiredTags I a.cellID c))
          { lrps := [], tasks := [], startingContainerCount := 0 }).tasks := by
  have hfl : ∀ cs : List executor.Container,
      (cs.filter (fun c => !missingRequiredTags I a.cellID c)).filterMap (lrpRecord I a.cellID)
        = cs.filterMap (lrpRecord I a.cellID) := by
    intro cs
    induction cs with
    | nil => rfl
    | cons c rest ih =>
      by_cases hm : missingRequiredTags I a.cellID c = true
      · simp [List.filter_cons, hm, (records_of_missingRequiredTags I a.cellID c hL hT hm).1, ih]
      · simp [List.filter_cons, hm, List.filterMap_cons, ih]
  have hft : ∀ cs : List executor.Container,
      (cs.filter (fun c => !missingRequiredTags I a.cellID c)).filterMap (taskRecord I)
        = cs.filterMap (taskRecord I) := by
    intro cs
    induction cs with
    | nil => rfl
    | cons c rest ih =>
      by_cases hm : missingRequiredTags I a.cellID c = true
      · simp [List.filter_cons, hm, (records_of_missingRequiredTags I a.cellID c hL hT hm).2, ih]
      · simp [List.filter_cons, hm, List.filterMap_cons, ih]
  refine ⟨?_, ?_, ?_, ?_⟩
  · intro c acc hm
    obtain ⟨hl, ht⟩ := records_of_missingRequiredTags I a.cellID c hL hT hm
    rw [stateStep_eq, hl, ht]
    simp
  · rw [state_of_queries_ok I a s h1 h2 h3 h4]
  · rw [state_of_queries_ok I a s h1 h2 h3 h4, stateLoop_eq]
    simp [NewCellState, hfl]
  · rw [state_of_queries_ok I a s h1 h2 h3 h4, stateLoop_eq]
    simp [NewCellState, hft]

/-- Witness for C12: between an LRP container and a task container, a container without tag
map and one with an unknown lifecycle are passed over. -/
theorem state_skips_containers_missing_tags_witness :
    (State Sample.importsDecoding (Sample.stateCell
        [Sample.containerNoTags, Sample.containerP1, Sample.containerOther,
          Sample.containerTask] true) 0).err = none ∧
    (State Sample.importsDecoding (Sample.stateCell
        [Sample.containerNoTags, Sample.containerP1, Sample.containerOther,
          Sample.containerTask] true) 0).state.LRPs.map (fun l => l.InstanceGUID) = ["ig-0"] ∧
    (State Sample.importsDecoding (Sample.stateCell
        [Sample.containerNoTags, Sample.containerP1, Sample.containerOther,
          Sample.containerTask] true) 0).state.Tasks.map (fun t => t.TaskGuid) = ["tg-a"] :=
  have h := state_skips_containers_missing_tags Sample.importsDecoding (Sample.stateCell
    [Sample.containerNoTags, Sample.containerP1, Sample.containerOther, Sample.containerTask]
    true) 0 (by decide) (by decide) rfl rfl rfl rfl
  ⟨h.2.1, (congrArg (List.map (fun l => l.InstanceGUID)) h.2.2.1).trans (by decide),
    (congrArg (List.map (fun t => t.TaskGuid)) h.2.2.2).trans (by decide)⟩

/-- C16: when the four runtime queries succeed, `State` returns a nil error and the answer
of the health probe as its `healthy` flag; with any other probe in place of the one of the
client, the error is still nil, the flag is the answer of that probe and the `CellState` is
the same. -/
theorem state_health_probe (I : Imports) (a : AuctionCellRep σ) (s : σ)
    (h1 : (containersReply a s).1.2 = none) (h2 : (totalResourcesReply a s).1.2 = none)
    (h3 : (remainingResourcesReply a s).1.2 = none) (h4 : (volumeDriversReply a s).1.2 = none) :
    (State I a s).err = none ∧
    (State I a s).healthy = (a.client.Healthy (volumeDriversReply a s).2).1 ∧
    ∀ probe : σ → Bool × σ,
      (State I { a with client := { a.client with Healthy := probe } } s).err = none ∧
      (State I { a with client := { a.client with Healthy := probe } } s).healthy
        = (probe (volumeDriversReply a s).2).1 ∧
      (State I { a with client := { a.client with Healthy := probe } } s).state
        = (State I a s).state := by
  refine ⟨?_, ?_, ?_⟩
  · rw [state_of_queries_ok I a s h1 h2 h3 h4]
  · rw [state_of_queries_ok I a s h1 h2 h3 h4]
  · intro probe
    rw [state_of_queries_ok I a s h1 h2 h3 h4,
      state_of_queries_ok I { a with client := { a.client with Healthy := probe } } s h1 h2 h3 h4]
    exact ⟨rfl, rfl, rfl⟩

/-- Witness for C16: the same container list under a healthy and under an unhealthy probe. -/
theorem state_health_probe_witness :
    (State Sample.importsDecoding (Sample.stateCell [Sample.containerP1] false) 0).err = none ∧
    (State Sample.importsDecoding (Sample.stateCell [Sample.containerP1] false) 0).healthy
      = false ∧
    (State Sample.importsDecoding (Sample.stateCell [Sample.containerP1] false) 0).state
      = (State Sample.importsDecoding (Sample.stateCell [Sample.containerP1] true) 0).state :=
  have h := state_health_probe Sample.importsDecoding
    (Sample.stateCell [Sample.containerP1] true) 0 rfl rfl rfl rfl
  ⟨(h.2.2 (fun n => (false, n))).1, (h.2.2 (fun n => (false, n))).2.1,
    (h.2.2 (fun n => (false, n))).2.2⟩

end StateTheorems2

section StateTheorems3

variable {σ : Type}

/-- The conversion to `int32` keeps a value that fits in 32 bits. -/
theorem toInt32_of_fits (x : Int) (hlo : -2147483648 ≤ x) (hhi : x < 2147483648) :
    toInt32 x = x := by
  unfold toInt32
  omega

/-- C13 as stated fails: a task container with well-formed tags and a recorded memory of
4294967808 MB is reported with `MemoryMB = 512`, the recorded value wrapped into 32 bits. -/
theorem state_record_resource_counterexample :
    Sample.containerHuge.MemoryMB = 4294967808 ∧
    (State Sample.importsDecoding (Sample.stateCell [Sample.containerHuge] true) 0).err = none ∧
    (State Sample.importsDecoding (Sample.stateCell [Sample.containerHuge] true)
        0).state.LRPs = [] ∧
    (State Sample.importsDecoding (Sample.stateCell [Sample.containerHuge] true)
        0).state.Tasks.map (fun t => (t.TaskGuid, t.MemoryMB, t.DiskMB, t.MaxPids))
      = [("tg-h", 512, 64, 5)] := by
  decide

/-- C13, amended: when the four runtime queries succeed, a container of the list with a
non-nil tag map contributes exactly one record, at its place among the records of the other
containers: an LRP record and no task when it holds the LRP marker and both keys are
extracted, a task record keyed by domain tag and container identifier and no LRP when it
holds the task marker and not the LRP marker.  The resource fields of the record are the
recorded memory, disk and process limit converted to `int32` (the recorded values themselves
when they fit in 32 bits), its constraint fields are the recorded root-filesystem path and
the two decoded tag lists. -/
theorem state_record_of_container (I : Imports) (a : AuctionCellRep σ) (s : σ)
    (c : executor.Container) (tags : executor.Tags) (before after : List executor.Container)
    (h1 : (containersReply a s).1.2 = none) (h2 : (totalResourcesReply a s).1.2 = none)
    (h3 : (remainingResourcesReply a s).1.2 = none) (h4 : (volumeDriversReply a s).1.2 = none)
    (hcs : (containersReply a s).1.1 = before ++ c :: after) (ht : c.Tags = some tags) :
    (GoMap.getD tags I.LifecycleTag = I.LRPLifecycle →
      (I.ActualLRPKeyFromTags tags).2 = none →
      (I.ActualLRPInstanceKeyFromContainer c a.cellID).2 = none →
        (State I a s).state.LRPs
          = before.filterMap (lrpRecord I a.cellID) ++
              NewLRP (I.ActualLRPInstanceKeyFromContainer c a.cellID).1.InstanceGuid
                (I.ActualLRPKeyFromTags tags).1
                { MemoryMB := toInt32 c.MemoryMB, DiskMB := toInt32 c.DiskMB,
                  MaxPids := toInt32 c.MaxPids }
                { RootFs := c.RootFSPath,
                  VolumeDrivers :=
                    (I.jsonUnmarshalStrings (GoMap.getD tags I.VolumeDriversTag)).1,
                  PlacementTags :=
                    (I.jsonUnmarshalStrings (GoMap.getD tags I.PlacementTagsTag)).1 }
                :: after.filterMap (lrpRecord I a.cellID) ∧
        (State I a s).state.Tasks
          = before.filterMap (taskRecord I) ++ after.filterMap (taskRecord I)) ∧
    (GoMap.getD tags I.LifecycleTag ≠ I.LRPLifecycle →
      GoMap.getD tags I.LifecycleTag = I.TaskLifecycle →
        (State I a s).state.Tasks
          = before.filterMap (taskRecord I) ++
              NewTask c.Guid (GoMap.getD tags I.DomainTag)
                { MemoryMB := toInt32 c.MemoryMB, DiskMB := toInt32 c.DiskMB,
                  MaxPids := toInt32 c.MaxPids }
                { RootFs := c.RootFSPath,
                  VolumeDrivers :=
                    (I.jsonUnmarshalStrings (GoMap.getD tags I.VolumeDriversTag)).1,
                  PlacementTags :=
                    (I.jsonUnmarshalStrings (GoMap.getD tags I.PlacementTagsTag)).1 }
                :: after.filterMap (taskRecord I) ∧
        (State I a s).state.LRPs
          = before.filterMap (lrpRecord I a.cellID) ++
              after.filterMap (lrpRecord I a.cellID)) ∧
    (∀ x : Int, -2147483648 ≤ x → x < 2147483648 → toInt32 x = x) := by
  have hst := state_of_queries_ok I a s h1 h2 h3 h4
  refine ⟨?_, ?_, toInt32_of_fits⟩
  · intro hl hk hik
    have hr : lrpRecord I a.cellID c
        = some (NewLRP (I.ActualLRPInstanceKeyFromContainer c a.cellID).1.InstanceGuid
            (I.ActualLRPKeyFromTags tags).1 (containerResource c)
            (containerConstraint I tags c)) := by
      simp [lrpRecord, ht, hl, hk, hik]
    have hn : taskRecord I c = none := by
      simp [taskRecord, ht, hl]
    rw [hst, hcs]
    simp [NewCellState, List.filterMap_append, List.filterMap_cons, hr, hn, containerResource,
      containerConstraint]
  · intro hl hk
    have hr : taskRecord I c
        = some (NewTask c.Guid (GoMap.getD tags I.DomainTag) (containerResource c)
            (containerConstraint I tags c)) := by
      have hne : ¬ I.TaskLifecycle = I.LRPLifecycle := fun h => hl (hk.trans h)
      simp [taskRecord, ht, hk, hne]
    have hn : lrpRecord I a.cellID c = none := by
      simp [lrpRecord, ht, hl]
    rw [hst, hcs]
    simp [NewCellState, List.filterMap_append, List.filterMap_cons, hr, hn, containerResource,
      containerConstraint]

/-- Witness for C13, amended: the LRP container of process `p1` between a container without
tags and a task container. -/
theorem state_record_of_container_witness :
    (State Sample.importsDecoding (Sample.stateCell
        [Sample.containerNoTags, Sample.containerP1, Sample.containerTask] true) 0).state.LRPs
      = [{ ProcessGuid := "p1", Index := 0, Domain := "d", PlacementTags := ["pt-1"],
           VolumeDrivers := [], RootFs := "/var/stacks/a", MemoryMB := 512, DiskMB := 1024,
           MaxPids := 10, InstanceGUID := "ig-0" }] ∧
    (State Sample.importsDecoding (Sample.stateCell
        [Sample.containerNoTags, Sample.containerP1, Sample.containerTask] true)
        0).state.Tasks.map (fun t => t.TaskGuid) = ["tg-a"] :=
  have h := (state_record_of_container Sample.importsDecoding (Sample.stateCell
    [Sample.containerNoTags, Sample.containerP1, Sample.containerTask] true) 0
    Sample.containerP1 Sample.lrpTagsP1 [Sample.containerNoTags] [Sample.containerTask]
    rfl rfl rfl rfl rfl rfl).1 (by decide) (by decide) (by decide)
  ⟨h.1.trans (by decide), (congrArg (List.map (fun t => t.TaskGuid)) h.2).trans (by decide)⟩

/-- C14 as stated fails: `State` copies the recorded root-filesystem path and never consults
the stack map.  A single LRP container for process `p1`, index `0`, memory 512 and disk 1024
that the runtime reports with root filesystem `preloaded:stack-a` gives one LRP entry whose
`RootFs` is `preloaded:stack-a`, although the stack map resolves it to `/var/stacks/a`. -/
theorem state_rootfs_not_resolved_counterexample :
    Sample.containerP1Preloaded.RootFSPath = "preloaded:stack-a" ∧
    PathForRootFS "preloaded:stack-a"
        (Sample.stateCell [Sample.containerP1Preloaded] true).stackPathMap
      = ("/var/stacks/a", none) ∧
    (State Sample.importsDecoding (Sample.stateCell [Sample.containerP1Preloaded] true)
        0).state.LRPs.map (fun l => (l.ProcessGuid, l.Index, l.MemoryMB, l.DiskMB, l.RootFs))
      = [("p1", 0, 512, 1024, "preloaded:stack-a")] := by
  decide

/-- C14, amended: when the runtime reports a single container that holds the LRP marker and
whose LRP key and instance key are extracted, `State` returns no error, no task and exactly
one LRP entry, built from the two keys, the recorded resources and the decoded tag lists,
whose `RootFs` is the recorded root-filesystem path of the container as it is, whatever the
stack map of the cell. -/
theorem state_single_lrp_container (I : Imports) (a : AuctionCellRep σ) (s : σ)
    (c : executor.Container) (tags : executor.Tags)
    (h1 : (containersReply a s).1 = ([c], none)) (h2 : (totalResourcesReply a s).1.2 = none)
    (h3 : (remainingResourcesReply a s).1.2 = none) (h4 : (volumeDriversReply a s).1.2 = none)
    (ht : c.Tags = some tags) (hl : GoMap.getD tags I.LifecycleTag = I.LRPLifecycle)
    (hk : (I.ActualLRPKeyFromTags tags).2 = none)
    (hik : (I.ActualLRPInstanceKeyFromContainer c a.cellID).2 = none) :
    (State I a s).err = none ∧
    (State I a s).state.Tasks = [] ∧
    (State I a s).state.LRPs
      = [NewLRP (I.ActualLRPInstanceKeyFromContainer c a.cellID).1.InstanceGuid
          (I.ActualLRPKeyFromTags tags).1
          { MemoryMB := toInt32 c.MemoryMB, DiskMB := toInt32 c.DiskMB,
            MaxPids := toInt32 c.MaxPids }
          { RootFs := c.RootFSPath,
            VolumeDrivers := (I.jsonUnmarshalStrings (GoMap.getD tags I.VolumeDriversTag)).1,
            PlacementTags := (I.jsonUnmarshalStrings (GoMap.getD tags I.PlacementTagsTag)).1 }] ∧
    (State I a s).state.LRPs.map (fun l => l.RootFs) = [c.RootFSPath] := by
  have h1' : (containersReply a s).1.2 = none := by rw [h1]
  have hcs : (containersReply a s).1.1 = [c] := by rw [h1]
  have hr : lrpRecord I a.cellID c
      = some (NewLRP (I.ActualLRPInstanceKeyFromContainer c a.cellID).1.InstanceGuid
          (I.ActualLRPKeyFromTags tags).1 (containerResource c)
          (containerConstraint I tags c)) := by
    simp [lrpRecord, ht, hl, hk, hik]
  have hn : taskRecord I c = none := by
    simp [taskRecord, ht, hl]
  rw [state_of_queries_ok I a s h1' h2 h3 h4, hcs]
  simp [NewCellState, List.filterMap_cons, hr, hn, containerResource, containerConstraint,
    NewLRP]

/-- Witness for C14, amended: the container of process `p1`, index `0`, memory 512 and disk
1024, recorded with the path `/var/stacks/a`. -/
theorem state_single_lrp_container_witness :
    (State Sample.importsDecoding (Sample.stateCell [Sample.containerP1] true) 0).err = none ∧
    (State Sample.importsDecoding (Sample.stateCell [Sample.containerP1] true) 0).state.LRPs
      = [{ ProcessGuid := "p1", Index := 0, Domain := "d", PlacementTags := ["pt-1"],
           VolumeDrivers := [], RootFs := "/var/stacks/a", MemoryMB := 512, DiskMB := 1024,
           MaxPids := 10, InstanceGUID := "ig-0" }] :=
  have h := state_single_lrp_container Sample.importsDecoding
    (Sample.stateCell [Sample.containerP1] true) 0 Sample.containerP1 Sample.lrpTagsP1
    rfl rfl rfl rfl rfl (by decide) (by decide) (by decide)
  ⟨h.1, h.2.2.1.trans (by decide)⟩

/-- C15 as stated fails: `json.Unmarshal` goes on decoding after an element that is no
string, so the placement tags `["a", 1]` fail to decode and yet leave the list `["a", ""]`
in the reported task. -/
theorem state_decode_failure_counterexample :
    (json.UnmarshalStrings "[\"a\", 1]").2 ≠ none ∧
    (State Sample.importsDecoding (Sample.stateCell [Sample.containerTask] true) 0).err = none ∧
    (State Sample.importsDecoding (Sample.stateCell [Sample.containerTask] true)
        0).state.Tasks.map (fun t => (t.TaskGuid, t.PlacementTags, t.VolumeDrivers))
      = [("tg-a", ["a", ""], [])] := by
  decide

/-- C15, amended: when the four runtime queries succeed `State` returns no error, and a
container of the list with a non-nil tag map is reported whether or not its two list tags
decode: as an LRP when it holds the LRP marker and both keys are extracted, as a task when it
holds the task marker and not the LRP marker; the constraint fields of the record are what
`json.Unmarshal` leaves in the two lists.  With the decoder of `encoding/json` that is the
empty list for an absent or empty tag, for a value that is not valid JSON and for a JSON
value that is no array. -/
theorem state_reports_container_on_decode_failure (I : Imports) (a : AuctionCellRep σ) (s : σ)
    (c : executor.Container) (tags : executor.Tags)
    (h1 : (containersReply a s).1.2 = none) (h2 : (totalResourcesReply a s).1.2 = none)
    (h3 : (remainingResourcesReply a s).1.2 = none) (h4 : (volumeDriversReply a s).1.2 = none)
    (hc : c ∈ (containersReply a s).1.1) (ht : c.Tags = some tags) :
    (State I a s).err = none ∧
    (GoMap.getD tags I.LifecycleTag = I.LRPLifecycle →
      (I.ActualLRPKeyFromTags tags).2 = none →
      (I.ActualLRPInstanceKeyFromContainer c a.cellID).2 = none →
        ∃ r ∈ (State I a s).state.LRPs,
          r.toActualLRPKey = (I.ActualLRPKeyFromTags tags).1 ∧
          r.InstanceGUID = (I.ActualLRPInstanceKeyFromContainer c a.cellID).1.InstanceGuid ∧
          r.PlacementTags = (I.jsonUnmarshalStrings (GoMap.getD tags I.PlacementTagsTag)).1 ∧
          r.VolumeDrivers = (I.jsonUnmarshalStrings (GoMap.getD tags I.VolumeDriversTag)).1) ∧
    (GoMap.getD tags I.LifecycleTag ≠ I.LRPLifecycle →
      GoMap.getD tags I.LifecycleTag = I.TaskLifecycle →
        ∃ t ∈ (State I a s).state.Tasks,
          t.TaskGuid = c.Guid ∧ t.Domain = GoMap.getD tags I.DomainTag ∧
          t.PlacementTags = (I.jsonUnmarshalStrings (GoMap.getD tags I.PlacementTagsTag)).1 ∧
          t.VolumeDrivers = (I.jsonUnmarshalStrings (GoMap.getD tags I.VolumeDriversTag)).1) ∧
    (json.UnmarshalStrings "").1 = [] ∧ (json.UnmarshalStrings "").2 ≠ none ∧
    (∀ v : String, json.parse v.data = none →
      (json.UnmarshalStrings v).1 = [] ∧ (json.UnmarshalStrings v).2 ≠ none) ∧
    (∀ (v : String) (x : json.Value), json.parse v.data = some x →
      (∀ elems, x ≠ json.Value.array elems) → (json.UnmarshalStrings v).1 = []) := by
  have hst := state_of_queries_ok I a s h1 h2 h3 h4
  refine ⟨by rw [hst], ?_, ?_, by decide, by decide, ?_, ?_⟩
  · intro hl hk hik
    have hr : lrpRecord I a.cellID c
        = some (NewLRP (I.ActualLRPInstanceKeyFromContainer c a.cellID).1.InstanceGuid
            (I.ActualLRPKeyFromTags tags).1 (containerResource c)
            (containerConstraint I tags c)) := by
      simp [lrpRecord, ht, hl, hk, hik]
    refine ⟨NewLRP (I.ActualLRPInstanceKeyFromContainer c a.cellID).1.InstanceGuid
      (I.ActualLRPKeyFromTags tags).1 (containerResource c) (containerConstraint I tags c),
      ?_, rfl, rfl, rfl, rfl⟩
    rw [hst]
    exact List.mem_filterMap.mpr ⟨c, hc, hr⟩
  · intro hl hk
    have hr : taskRecord I c
        = some (NewTask c.Guid (GoMap.getD tags I.DomainTag) (containerResource c)
            (containerConstraint I tags c)) := by
      have hne : ¬ I.TaskLifecycle = I.LRPLifecycle := fun h => hl (hk.trans h)
      simp [taskRecord, ht, hk, hne]
    refine ⟨NewTask c.Guid (GoMap.getD tags I.DomainTag) (containerResource c)
      (containerConstraint I tags c), ?_, rfl, rfl, rfl, rfl⟩
    rw [hst]
    exact List.mem_filterMap.mpr ⟨c, hc, hr⟩
  · intro v hv
    simp [json.UnmarshalStrings, hv]
  · intro v x hv hx
    unfold json.UnmarshalStrings
    rw [hv]
    cases x with
    | array elems => exact absurd rfl (hx elems)
    | null => rfl
    | bool b => rfl
    | number => rfl
    | string str => rfl
    | object ms => rfl

/-- Witness for C15, amended: the task container whose placement tags fail to decode and
whose volume-drivers tag is absent is reported all the same. -/
theorem state_reports_container_on_decode_failure_witness :
    (json.UnmarshalStrings "[\"a\", 1]").2 ≠ none ∧
    (json.UnmarshalStrings "").2 ≠ none ∧
    (State Sample.importsDecoding (Sample.stateCell
        [Sample.containerP1, Sample.containerTask] true) 0).err = none ∧
    ∃ t ∈ (State Sample.importsDecoding (Sample.stateCell
        [Sample.containerP1, Sample.containerTask] true) 0).state.Tasks,
      t.TaskGuid = "tg-a" ∧ t.VolumeDrivers = [] :=
  have h := state_reports_container_on_decode_failure Sample.importsDecoding
    (Sample.stateCell [Sample.containerP1, Sample.containerTask] true) 0 Sample.containerTask
    [("lifecycle", "task"), ("domain", "d"), ("placement-tags", "[\"a\", 1]")]
    rfl rfl rfl rfl (by decide) rfl
  ⟨by decide, by decide, h.1,
    (h.2.2.1 (by decide) (by decide)).imp fun _ ht => ⟨ht.1, ht.2.1, ht.2.2.2.2.trans (by decide)⟩⟩

end StateTheorems3

/-! ## The identifier maps and the shape of an LRP request: theorems -/

section MapInvariantLemmas

variable {σ : Type}

/-- An entry carries what `translateLRP` gives for its LRP at its position. -/
theorem lrpEntries_snd (I : Imports) (a : AuctionCellRep σ) (s : σ) (lrps : List LRP) (n : Nat)
    (e : LRPRef × Option executor.AllocationRequest) (he : e ∈ lrpEntries I a s n lrps) :
    e.2 = translateLRP I a (genWorld a s e.1.index) e.1.elem := by
  unfold lrpEntries at he
  obtain ⟨p, _, rfl⟩ := List.mem_map.mp he
  rfl

/-- An identifier is a key after the writes exactly when it was a key before or some entry
submits it. -/
theorem recordLRPs_isSome (es : List (LRPRef × Option executor.AllocationRequest)) (g : String) :
    ∀ m : GoMap LRPRef,
      (GoMap.lookup (recordLRPs es m) g).isSome = true ↔
        ((GoMap.lookup m g).isSome = true ∨
          g ∈ (es.filterMap (fun e => e.2)).map (fun r => r.Guid)) := by
  induction es with
  | nil => intro m; simp [recordLRPs]
  | cons e rest ih =>
    intro m
    obtain ⟨ref, o⟩ := e
    rw [recordLRPs_cons, ih]
    cases o with
    | none => simp [recordLRPs]
    | some req =>
      simp only [recordLRPs, List.foldl_cons, List.foldl_nil, GoMap.lookup_set,
        List.filterMap_cons, List.map_cons, List.mem_cons]
      by_cases hk : req.Guid = g
      · simp [hk]
      · have hk' : ¬ g = req.Guid := fun h => hk h.symm
        simp [hk, hk']

/-- The identifier of a translated LRP that no later translated LRP shares reads back the
pointer to that LRP. -/
theorem lrpEntries_lookup_last (I : Imports) (a : AuctionCellRep σ) (s : σ) (lrps : List LRP) :
    ∀ (n : Nat) (m : GoMap LRPRef) (i : Nat) (lrp : LRP), n ≤ i → lrps[i - n]? = some lrp →
      lrpFailsTranslation a s i lrp = false →
      (∀ (j : Nat) (l : LRP), i < j → lrps[j - n]? = some l →
        lrpFailsTranslation a s j l = false →
        (lrpRequest I a s j l).Guid ≠ (lrpRequest I a s i lrp).Guid) →
      GoMap.lookup (recordLRPs (lrpEntries I a s n lrps) m) (lrpRequest I a s i lrp).Guid
        = some { index := i, elem := lrp } := by
  induction lrps with
  | nil => intro n m i lrp _ hi; simp at hi
  | cons x rest ih =>
    intro n m i lrp hn hi hok hlater
    rw [lrpEntries_cons, recordLRPs_cons]
    by_cases hin : i = n
    · subst hin
      have hx : x = lrp := by simpa using hi
      subst hx
      have hnot : (lrpRequest I a s i x).Guid ∉
          ((lrpEntries I a s (i + 1) rest).filterMap (fun e => e.2)).map (fun r => r.Guid) := by
        intro hmem
        obtain ⟨req, hreq, hg⟩ := List.mem_map.mp hmem
        obtain ⟨e, he, he2⟩ := List.mem_filterMap.mp hreq
        obtain ⟨hle, hget⟩ := lrpEntries_ref I a s rest (i + 1) e he
        have hsnd := lrpEntries_snd I a s rest (i + 1) e he
        rw [translateLRP_eq] at hsnd
        by_cases hf : lrpFailsTranslation a s e.1.index e.1.elem = true
        · rw [hf] at hsnd
          rw [hsnd] at he2
          simp at he2
        · have hf' : lrpFailsTranslation a s e.1.index e.1.elem = false := by simpa using hf
          rw [hf'] at hsnd
          rw [hsnd] at he2
          have hreq' : req = lrpRequest I a s e.1.index e.1.elem := by
            simpa using he2.symm
          have hidx : (x :: rest)[e.1.index - i]? = some e.1.elem := by
            have : e.1.index - i = (e.1.index - (i + 1)) + 1 := by omega
            rw [this]
            simpa using hget
          exact hlater e.1.index e.1.elem (by omega) hidx hf' (by rw [← hreq']; exact hg)
      rw [recordLRPs_lookup_other _ _ _ hnot, translateLRP_eq, hok]
      simp [recordLRPs, GoMap.lookup_set]
    · have hlt : n < i := by omega
      have hi' : rest[i - (n + 1)]? = some lrp := by
        have : i - n = (i - (n + 1)) + 1 := by omega
        rw [this] at hi
        simpa using hi
      apply ih (n + 1) _ i lrp (by omega) hi' hok
      intro j l hij hj hfj
      apply hlater j l hij _ hfj
      have : j - n = (j - (n + 1)) + 1 := by omega
      rw [this]
      simpa using hj

/-- Whatever is read from `taskMap` after the writes points to the task of the batch at the
position it names, whose identifier is the key, or was there before. -/
theorem recordTasks_lookup_ref (tasks : List Task) (g : String) (ref : TaskRef) :
    ∀ (n : Nat) (m : GoMap TaskRef), GoMap.lookup (recordTasks n tasks m) g = some ref →
      (n ≤ ref.index ∧ tasks[ref.index - n]? = some ref.elem ∧ ref.elem.TaskGuid = g) ∨
        GoMap.lookup m g = some ref := by
  induction tasks with
  | nil => intro n m h; right; simpa [recordTasks] using h
  | cons t rest ih =>
    intro n m h
    have hstep : recordTasks n (t :: rest) m
        = recordTasks (n + 1) rest (GoMap.set m t.TaskGuid { index := n, elem := t }) := by
      simp [recordTasks, List.enumFrom]
    rw [hstep] at h
    rcases ih _ _ h with ⟨h1, h2, h3⟩ | h'
    · left
      refine ⟨by omega, ?_, h3⟩
      have : ref.index - n = (ref.index - (n + 1)) + 1 := by omega
      rw [this]
      simpa using h2
    · rw [GoMap.lookup_set] at h'
      by_cases hk : t.TaskGuid = g
      · rw [if_pos hk] at h'
        left
        have : ref = { index := n, elem := t } := (Option.some.inj h').symm
        subst this
        simp [hk]
      · rw [if_neg hk] at h'
        right
        exact h'

/-- The identifier of every task of the batch is a key of `taskMap` after the writes. -/
theorem recordTasks_isSome (tasks : List Task) (g : String) :
    ∀ (n : Nat) (m : GoMap TaskRef),
      ((GoMap.lookup m g).isSome = true ∨ g ∈ tasks.map (fun t => t.TaskGuid)) →
        (GoMap.lookup (recordTasks n tasks m) g).isSome = true := by
  induction tasks with
  | nil => intro n m h; simpa [recordTasks] using h
  | cons t rest ih =>
    intro n m h
    have hstep : recordTasks n (t :: rest) m
        = recordTasks (n + 1) rest (GoMap.set m t.TaskGuid { index := n, elem := t }) := by
      simp [recordTasks, List.enumFrom]
    rw [hstep]
    apply ih
    rw [GoMap.lookup_set]
    by_cases hk : t.TaskGuid = g
    · simp [hk]
    · rcases h with h | h
      · simp [hk, h]
      · simp only [List.map_cons, List.mem_cons] at h
        rcases h with h | h
        · exact absurd h.symm hk
        · exact Or.inr h

/-- The identifiers of the task requests are the identifiers of the tasks that translate. -/
theorem task_request_guids (I : Imports) (a : AuctionCellRep σ) (tasks : List Task) :
    (tasks.filterMap (translateTask I a)).map (fun r => r.Guid)
      = (tasks.filter (fun t => (PathForRootFS t.RootFs a.stackPathMap).2.isNone)).map
          (fun t => t.TaskGuid) := by
  induction tasks with
  | nil => rfl
  | cons t rest ih =>
    cases hp : (PathForRootFS t.RootFs a.stackPathMap).2 with
    | some e => simp [List.filterMap_cons, List.filter_cons, translateTask, hp, ih]
    | none =>
      simp [List.filterMap_cons, List.filter_cons, translateTask, hp, ih,
        executor.NewAllocationRequest]

/-- The tag map written for an LRP, when the five tag keys are pairwise distinct. -/
theorem lrpTags_eq (I : Imports) (lrp : LRP) (g : String)
    (hkeys : [I.DomainTag, I.ProcessGuidTag, I.ProcessIndexTag, I.LifecycleTag,
      I.InstanceGuidTag].Nodup) :
    lrpTags I lrp g
      = [(I.DomainTag, lrp.Domain), (I.ProcessGuidTag, lrp.ProcessGuid),
          (I.ProcessIndexTag, toString lrp.Index), (I.LifecycleTag, I.LRPLifecycle),
          (I.InstanceGuidTag, g)] := by
  simp only [List.nodup_cons, List.mem_cons, List.mem_singleton, not_or, List.not_mem_nil,
    not_false_eq_true, List.nodup_nil, and_true] at hkeys
  obtain ⟨⟨h12, h13, h14, h15⟩, ⟨h23, h24, h25⟩, ⟨h34, h35⟩, h45⟩ := hkeys
  simp [lrpTags, GoMap.set, List.filter, h12, h13, h14, h15, h23, h24, h25, h34, h35, h45]

end MapInvariantLemmas

section MapInvariantTheorems

variable {σ : Type}

/-- C17 as stated fails: nothing in `Perform` makes the submitted identifiers distinct.  A
generator that answers `ig-0` twice gives two LRP requests under the one identifier
`pg-a-ig-0`, for which `lrpMap` has a single key, and two tasks with the same `TaskGuid` give
two task requests under that identifier. -/
theorem submitted_identifiers_counterexample :
    lrpBatchGuids Sample.imports (Sample.cell false Sample.guidSame Sample.refuseAll) 0
        [Sample.lrpA, Sample.lrpA1] = ["pg-a-ig-0", "pg-a-ig-0"] ∧
    ¬ (lrpBatchGuids Sample.imports (Sample.cell false Sample.guidSame Sample.refuseAll) 0
        [Sample.lrpA, Sample.lrpA1]).Nodup ∧
    (lrpBatch Sample.imports (Sample.cell false Sample.guidSame Sample.refuseAll) 0
        [Sample.lrpA, Sample.lrpA1]).lrpMap.map Prod.fst = ["pg-a-ig-0"] ∧
    (tasksToAllocationRequests Sample.imports
        (Sample.cell false Sample.guidSame Sample.refuseAll)
        [Sample.taskA, Sample.taskA]).requests.map (fun r => r.Guid) = ["tg-a", "tg-a"] ∧
    ¬ ((tasksToAllocationRequests Sample.imports
        (Sample.cell false Sample.guidSame Sample.refuseAll)
        [Sample.taskA, Sample.taskA]).requests.map (fun r => r.Guid)).Nodup := by
  decide

/-- C17, amended.  LRP batch: the keys of `lrpMap` are exactly the submitted identifiers;
every key maps to a pointer into the batch whose LRP translates into that key, so distinct
keys map to distinct positions; and when the submitted identifiers are pairwise distinct,
the identifier of every translated LRP maps back to that LRP.  Task batch: the submitted
identifiers are the `TaskGuid`s of the tasks whose root filesystem resolves, in order; each
of them is a key of `taskMap`; every key maps to a pointer into the batch whose task has that
`TaskGuid`, so distinct keys map to distinct tasks. -/
theorem reconciliation_maps (I : Imports) (a : AuctionCellRep σ) (s : σ) (lrps : List LRP)
    (tasks : List Task) :
    (∀ g : String, (GoMap.lookup (lrpBatch I a s lrps).lrpMap g).isSome = true ↔
      g ∈ lrpBatchGuids I a s lrps) ∧
    (∀ (g : String) (ref : LRPRef), GoMap.lookup (lrpBatch I a s lrps).lrpMap g = some ref →
      lrps[ref.index]? = some ref.elem ∧
      lrpFailsTranslation a s ref.index ref.elem = false ∧
      (lrpRequest I a s ref.index ref.elem).Guid = g) ∧
    (∀ (g g' : String) (ref ref' : LRPRef),
      GoMap.lookup (lrpBatch I a s lrps).lrpMap g = some ref →
      GoMap.lookup (lrpBatch I a s lrps).lrpMap g' = some ref' →
      g ≠ g' → ref.index ≠ ref'.index) ∧
    ((lrpBatchGuids I a s lrps).Nodup →
      ∀ (i : Nat) (l : LRP), lrps[i]? = some l → lrpFailsTranslation a s i l = false →
        GoMap.lookup (lrpBatch I a s lrps).lrpMap (lrpRequest I a s i l).Guid
          = some { index := i, elem := l }) ∧
    ((tasksToAllocationRequests I a tasks).requests.map (fun r => r.Guid)
      = (tasks.filter (fun t => (PathForRootFS t.RootFs a.stackPathMap).2.isNone)).map
          (fun t => t.TaskGuid)) ∧
    (∀ g ∈ (tasksToAllocationRequests I a tasks).requests.map (fun r => r.Guid),
      (GoMap.lookup (tasksToAllocationRequests I a tasks).taskMap g).isSome = true) ∧
    (∀ (g : String) (ref : TaskRef),
      GoMap.lookup (tasksToAllocationRequests I a tasks).taskMap g = some ref →
        tasks[ref.index]? = some ref.elem ∧ ref.elem.TaskGuid = g) := by
  have hpoint : ∀ (g : String) (ref : LRPRef),
      GoMap.lookup (lrpBatch I a s lrps).lrpMap g = some ref →
        lrps[ref.index]? = some ref.elem ∧
        lrpFailsTranslation a s ref.index ref.elem = false ∧
        (lrpRequest I a s ref.index ref.elem).Guid = g := by
    intro g ref h
    rw [lrpBatch_eq] at h
    rcases recordLRPs_lookup_mem _ g ref [] h with ⟨e, he, h1, req, h2, h3⟩ | h'
    · have hget := (lrpEntries_ref I a s lrps 0 e he).2
      have hsnd := lrpEntries_snd I a s lrps 0 e he
      rw [h1] at hget hsnd
      rw [translateLRP_eq, h2] at hsnd
      by_cases hf : lrpFailsTranslation a s ref.index ref.elem = true
      · rw [hf] at hsnd
        simp at hsnd
      · have hf' : lrpFailsTranslation a s ref.index ref.elem = false := by simpa using hf
        rw [hf'] at hsnd
        have hreq : req = lrpRequest I a s ref.index ref.elem := by simpa using hsnd
        exact ⟨by simpa using hget, hf', by rw [← hreq]; exact h3⟩
    · simp [GoMap.lookup] at h'
  refine ⟨?_, hpoint, ?_, ?_, ?_, ?_, ?_⟩
  · intro g
    unfold lrpBatchGuids
    rw [lrpBatch_eq]
    rw [recordLRPs_isSome]
    simp [GoMap.lookup]
  · intro g g' ref ref' h h' hne hidx
    obtain ⟨h1, _, h3⟩ := hpoint g ref h
    obtain ⟨h1', _, h3'⟩ := hpoint g' ref' h'
    rw [hidx, h1'] at h1
    have helem : ref'.elem = ref.elem := by simpa using h1
    apply hne
    rw [← h3, ← h3', hidx, helem]
  · intro hnd i l hi hok
    have hnd' : (((lrpEntries I a s 0 lrps).filterMap (fun e => e.2)).map
        (fun r => r.Guid)).Nodup := by
      have := hnd
      unfold lrpBatchGuids at this
      rw [lrpBatch_eq] at this
      exact this
    have hmem : (({ index := i, elem := l } : LRPRef), some (lrpRequest I a s i l))
        ∈ lrpEntries I a s 0 lrps := by
      have hp : (i, l) ∈ lrps.enum := List.mk_mem_enum_iff_getElem?.mpr hi
      unfold lrpEntries
      refine List.mem_map.mpr ⟨(i, l), hp, ?_⟩
      simp only [translateLRP_eq]
      simp [hok]
    rw [lrpBatch_eq]
    exact recordLRPs_lookup_unique _ _ _ [] hnd' hmem
  · rw [tasksToAllocationRequests_eq]
    exact task_request_guids I a tasks
  · intro g hg
    rw [tasksToAllocationRequests_eq] at hg ⊢
    simp only at hg ⊢
    rw [task_request_guids] at hg
    apply recordTasks_isSome
    right
    obtain ⟨t, ht, rfl⟩ := List.mem_map.mp hg
    exact List.mem_map.mpr ⟨t, (List.mem_filter.mp ht).1, rfl⟩
  · intro g ref h
    rw [tasksToAllocationRequests_eq] at h
    rcases recordTasks_lookup_ref tasks g ref 0 [] h with ⟨_, h2, h3⟩ | h'
    · exact ⟨by simpa using h2, h3⟩
    · simp [GoMap.lookup] at h'

/-- C18 as stated fails: when a later LRP of the batch is translated into the same container
identifier, `lrpMap` sends the identifier to the later LRP.  With a generator that answers
`ig-0` twice, the first of two LRPs of process `pg-a` translates into `pg-a-ig-0`, and the map
sends `pg-a-ig-0` to the second. -/
theorem lrp_request_map_counterexample :
    lrpFailsTranslation (Sample.cell false Sample.guidSame Sample.refuseAll) 0 0 Sample.lrpA
      = false ∧
    (lrpRequest Sample.imports (Sample.cell false Sample.guidSame Sample.refuseAll) 0 0
        Sample.lrpA).Guid = "pg-a-ig-0" ∧
    GoMap.lookup (lrpBatch Sample.imports (Sample.cell false Sample.guidSame Sample.refuseAll)
        0 [Sample.lrpA, Sample.lrpA1]).lrpMap "pg-a-ig-0"
      = some { index := 1, elem := Sample.lrpA1 } ∧
    GoMap.lookup (lrpBatch Sample.imports (Sample.cell false Sample.guidSame Sample.refuseAll)
        0 [Sample.lrpA, Sample.lrpA1]).lrpMap "pg-a-ig-0"
      ≠ some { index := 0, elem := Sample.lrpA } := by
  decide

/-- C18, amended: with pairwise distinct tag keys, the LRP at position `i` of a batch, when it
translates with generated instance identifier `g` and resolved path `p`, has its request among
the submitted ones; the request has container identifier `LRPContainerGuid(ProcessGuid, g)`,
the resource made of the LRP's memory, disk, process limit and `p`, and a tag map of exactly
five entries: domain, process identifier, decimal process index, LRP lifecycle marker and `g`.
`lrpMap` sends that container identifier to an LRP of the batch translated into it: to this
LRP when no later LRP of the batch is translated into the same identifier. -/
theorem lrp_request_shape (I : Imports) (a : AuctionCellRep σ) (s : σ) (lrps : List LRP)
    (i : Nat) (lrp : LRP)
    (hkeys : [I.DomainTag, I.ProcessGuidTag, I.ProcessIndexTag, I.LifecycleTag,
      I.InstanceGuidTag].Nodup)
    (hi : lrps[i]? = some lrp) (hok : lrpFailsTranslation a s i lrp = false) :
    lrpRequest I a s i lrp ∈ (lrpBatch I a s lrps).requests ∧
    (lrpRequest I a s i lrp).Guid
      = I.LRPContainerGuid lrp.ProcessGuid (a.generateInstanceGuid (genWorld a s i)).1.1 ∧
    (lrpRequest I a s i lrp).Resource
      = { MemoryMB := lrp.MemoryMB, DiskMB := lrp.DiskMB, MaxPids := lrp.MaxPids,
          RootFSPath := (PathForRootFS lrp.RootFs a.stackPathMap).1 } ∧
    (lrpRequest I a s i lrp).Tags
      = [(I.DomainTag, lrp.Domain), (I.ProcessGuidTag, lrp.ProcessGuid),
          (I.ProcessIndexTag, toString lrp.Index), (I.LifecycleTag, I.LRPLifecycle),
          (I.InstanceGuidTag, (a.generateInstanceGuid (genWorld a s i)).1.1)] ∧
    (∃ ref : LRPRef,
      GoMap.lookup (lrpBatch I a s lrps).lrpMap (lrpRequest I a s i lrp).Guid = some ref ∧
      lrps[ref.index]? = some ref.elem ∧
      lrpFailsTranslation a s ref.index ref.elem = false ∧
      (lrpRequest I a s ref.index ref.elem).Guid = (lrpRequest I a s i lrp).Guid) ∧
    ((∀ (j : Nat) (l : LRP), i < j → lrps[j]? = some l → lrpFailsTranslation a s j l = false →
        (lrpRequest I a s j l).Guid ≠ (lrpRequest I a s i lrp).Guid) →
      GoMap.lookup (lrpBatch I a s lrps).lrpMap (lrpRequest I a s i lrp).Guid
        = some { index := i, elem := lrp }) := by
  have hmem : lrpRequest I a s i lrp ∈ (lrpBatch I a s lrps).requests := by
    rw [lrpBatch_requests]
    refine List.mem_map.mpr ⟨(i, lrp), List.mem_filter.mpr ⟨?_, by simp [hok]⟩, rfl⟩
    exact List.mk_mem_enum_iff_getElem?.mpr hi
  refine ⟨hmem, rfl, rfl, ?_, ?_, ?_⟩
  · exact lrpTags_eq I lrp _ hkeys
  · have hkey : (GoMap.lookup (lrpBatch I a s lrps).lrpMap
        (lrpRequest I a s i lrp).Guid).isSome = true := by
      rw [lrpBatch_eq]
      rw [recordLRPs_isSome]
      right
      have := hmem
      rw [lrpBatch_eq] at this
      exact List.mem_map.mpr ⟨_, this, rfl⟩
    obtain ⟨ref, href⟩ := Option.isSome_iff_exists.mp hkey
    refine ⟨ref, href, ?_⟩
    rw [lrpBatch_eq] at href
    rcases recordLRPs_lookup_mem _ _ ref [] href with ⟨e, he, h1, req, h2, h3⟩ | h'
    · have hget := (lrpEntries_ref I a s lrps 0 e he).2
      have hsnd := lrpEntries_snd I a s lrps 0 e he
      rw [h1] at hget hsnd
      rw [translateLRP_eq, h2] at hsnd
      by_cases hf : lrpFailsTranslation a s ref.index ref.elem = true
      · rw [hf] at hsnd
        simp at hsnd
      · have hf' : lrpFailsTranslation a s ref.index ref.elem = false := by simpa using hf
        rw [hf'] at hsnd
        have hreq : req = lrpRequest I a s ref.index ref.elem := by simpa using hsnd
        exact ⟨by simpa using hget, hf', by rw [← hreq]; exact h3⟩
    · simp [GoMap.lookup] at h'
  · intro hlater
    rw [lrpBatch_eq]
    exact lrpEntries_lookup_last I a s lrps 0 [] i lrp (Nat.zero_le _) (by simpa using hi) hok
      (fun j l hij hj hfj => hlater j l hij (by simpa using hj) hfj)

/-- Witness for C18, amended: the second of two LRPs under a generator of distinct
identifiers. -/
theorem lrp_request_shape_witness :
    (lrpRequest Sample.imports (Sample.cell false Sample.guidDistinct Sample.refuseAll) 0 1
        Sample.lrpB)
      = { Guid := "pg-b-ig-1",
          Resource :=
            { MemoryMB := 256, DiskMB := 512, MaxPids := 10, RootFSPath := "docker:///image" },
          Tags := [("domain", "d"), ("process-guid", "pg-b"), ("process-index", "1"),
            ("lifecycle", "lrp"), ("instance-guid", "ig-1")] } ∧
    lrpRequest Sample.imports (Sample.cell false Sample.guidDistinct Sample.refuseAll) 0 1
        Sample.lrpB
      ∈ (lrpBatch Sample.imports (Sample.cell false Sample.guidDistinct Sample.refuseAll) 0
          [Sample.lrpA, Sample.lrpB]).requests ∧
    GoMap.lookup (lrpBatch Sample.imports
        (Sample.cell false Sample.guidDistinct Sample.refuseAll) 0
        [Sample.lrpA, Sample.lrpB]).lrpMap "pg-b-ig-1"
      = some { index := 1, elem := Sample.lrpB } :=
  have h := lrp_request_shape Sample.imports
    (Sample.cell false Sample.guidDistinct Sample.refuseAll) 0 [Sample.lrpA, Sample.lrpB] 1
    Sample.lrpB (by decide) rfl (by decide)
  ⟨by decide, h.1, h.2.2.2.2.2 (by
    intro j l hij hj
    have hlen : j < [Sample.lrpA, Sample.lrpB].length := by
      by_contra hc
      rw [List.getElem?_eq_none (Nat.le_of_not_lt hc)] at hj
      cases hj
    simp only [List.length_cons, List.length_nil] at hlen
    omega)⟩

end MapInvariantTheorems

end Rep
